import Mathlib

/-!
# libstorage-ng: MD RAID device policy

A shallow embedding of `storage/Devices/MdImpl.cc`.

Integer model (LP64, the data model of the Linux targets of the library):
`unsigned long long` and `unsigned long` are naturals below `2 ^ 64` with
wrap-around arithmetic, `long` is an integer obtained from a 64-bit pattern
by `toLong`.  The member counter `int number` is a natural number (device
lists are far shorter than `2 ^ 31`), and `long optimal_io_size` is computed
in the integers without wrap (signed overflow is undefined in the source).
-/

namespace Storage

/-! ## Machine integers -/

/-- The modulus of `unsigned long long` arithmetic, `2 ^ 64`. -/
def ULL : Nat := 18446744073709551616

/-- The largest `unsigned long long`, `std::numeric_limits<unsigned long long>::max()`. -/
def ULLONG_MAX : Nat := 18446744073709551615

/-- Conversion of a 64-bit pattern to `long` (two's complement). -/
def toLong (x : Nat) : Int :=
  if x % ULL < 9223372036854775808 then ((x % ULL : Nat) : Int)
  else ((x % ULL : Nat) : Int) - 18446744073709551616

/-- Conversion of a `long` (or `int`) to `unsigned long long`, as done by the
usual arithmetic conversions when the other operand is `unsigned long long`. -/
def toULL (i : Int) : Nat := (i % 18446744073709551616).toNat

/-- Subtraction of `unsigned long long` values: wraps below zero. -/
def sub64 (a b : Nat) : Nat := (a + ULL - b % ULL) % ULL

/-- Bitwise complement of an `unsigned long long`. -/
def not64 (a : Nat) : Nat := ULLONG_MAX - a % ULL

/-- Addition of `unsigned long long` values. -/
def add64 (a b : Nat) : Nat := (a + b) % ULL

/-- Multiplication of `unsigned long long` values. -/
def mul64 (a b : Nat) : Nat := (a * b) % ULL

/-- Modelled from the spec: the constant `KiB` of `storage/Utils/HumanString.h`
is declared outside the embedded sources; the spec uses 4 KiB = 4096 bytes. -/
def KiB : Nat := 1024

/-- Modelled from the spec: the constant `MiB` (see `KiB`). -/
def MiB : Nat := 1048576

/-! ## Data model -/

/-- The RAID levels, in the order of `EnumTraits<MdLevel>::names`. -/
inductive MdLevel where
  | UNKNOWN | RAID0 | RAID1 | RAID4 | RAID5 | RAID6 | RAID10 | CONTAINER
  deriving DecidableEq, Repr

/-- The parity layouts, in the order of `EnumTraits<MdParity>::names`. -/
inductive MdParity where
  | DEFAULT | LEFT_ASYMMETRIC | LEFT_SYMMETRIC | RIGHT_ASYMMETRIC
  | RIGHT_SYMMETRIC | FIRST | LAST | LEFT_ASYMMETRIC_6
  | LEFT_SYMMETRIC_6 | RIGHT_ASYMMETRIC_6 | RIGHT_SYMMETRIC_6
  | FIRST_6 | NEAR_2 | OFFSET_2 | FAR_2 | NEAR_3 | OFFSET_3 | FAR_3
  deriving DecidableEq, Repr

/-- Modelled from the spec: `Region` is declared outside the embedded sources.
The spec describes it as start, length and block size; the length is kept
here as the size in bytes that `set_size` stores and `get_size` returns. -/
structure Region where
  start : Nat
  size : Nat
  block_size : Nat
  deriving DecidableEq, Repr

/-- Modelled from the spec: `Topology(alignment_offset, optimal_io_size)`. -/
structure Topology where
  alignment_offset : Int
  optimal_io_size : Int
  deriving DecidableEq, Repr

/-- A block device as far as an Md looks at it: identity, size in bytes
(`get_size()`, an `unsigned long long`) and number of children. -/
structure BlkDevice where
  sid : Nat
  size : Nat
  num_children : Nat
  deriving DecidableEq, Repr

/-- A parent of an Md together with the flags of the `MdUser` holder that
links it to the Md (`get_single_out_holder_of_type<const MdUser>()`). -/
structure MdDevice where
  sid : Nat
  size : Nat
  spare : Bool
  faulty : Bool
  deriving DecidableEq, Repr

/-- The state of an `Md::Impl` with the part of the devicegraph it reads:
`devices` is `get_devices()`, `exists_in_system` the answer of
`exists_in_system()`. -/
structure Md where
  sid : Nat
  name : String
  md_level : MdLevel
  md_parity : MdParity
  chunk_size : Nat
  uuid : String
  metadata : String
  in_etc_mdadm : Bool
  active : Bool
  exists_in_system : Bool
  region : Region
  topology : Topology
  devices : List MdDevice
  sysfs_name : String := ""
  deriving DecidableEq, Repr

/-- Modelled from the spec: `BlkDevice::Impl::set_size` is declared outside the
embedded sources; it stores the size of the region. -/
def set_size (md : Md) (size : Nat) : Md :=
  { md with region := { md.region with size := size } }

/-- Modelled from the spec: `BlkDevice::Impl::get_size` (see `set_size`). -/
def get_size (md : Md) : Nat := md.region.size

/-- Modelled from the spec: `BlkDevice::Impl::set_topology`. -/
def set_topology (md : Md) (topology : Topology) : Md :=
  { md with topology := topology }

/-! ## Sizing -/

/-- `Md::Impl::minimal_number_of_devices`. -/
def minimal_number_of_devices (md_level : MdLevel) : Nat :=
  match md_level with
  | .RAID0 => 2
  | .RAID1 => 2
  | .RAID4 => 3
  | .RAID5 => 3
  | .RAID6 => 4
  | .RAID10 => 2
  | _ => 0

/-- `Md::Impl::number_of_devices`: the members whose holder is not spare. -/
def number_of_devices (md : Md) : Nat :=
  md.devices.countP (fun d => !d.spare)

/-- `Md::Impl::get_default_chunk_size`. -/
def get_default_chunk_size : Nat := 512 * KiB

/-- The local `long real_chunk_size` of `calculate_region_and_topology`. -/
def real_chunk_size (md_level : MdLevel) (chunk_size : Nat) : Int :=
  let r : Int := toLong chunk_size
  let r : Int := if r = 0 then toLong get_default_chunk_size else r
  if md_level = MdLevel.RAID1 then toLong (64 * KiB) else r

/-- The body of the member loop of `calculate_region_and_topology` up to the
truncation: from the raw size of a member to its usable size. -/
def usable_size (real_chunk_size : Int) (size : Nat) : Nat :=
  -- size = (size & ~(0x1000ULL - 1)) - 0x2000;
  let size1 := sub64 (size &&& not64 (0x1000 - 1)) 0x2000
  -- size -= min(128 * MiB, size / 64);
  let size2 := sub64 size1 (min (128 * MiB) (size1 / 64))
  -- long rest = size % real_chunk_size;
  let rest : Int := toLong (size2 % toULL real_chunk_size)
  -- if (rest > 0) size -= rest;
  if rest > 0 then sub64 size2 (toULL rest) else size2

/-- The three accumulators of the member loop. -/
structure Accu where
  number : Nat
  sum : Nat
  smallest : Nat
  deriving DecidableEq, Repr

/-- One iteration of the member loop. -/
def loop_step (real_chunk_size : Int) (acc : Accu) (d : MdDevice) : Accu :=
  let size := usable_size real_chunk_size d.size
  { number := if d.spare then acc.number else acc.number + 1
    sum := if d.spare then acc.sum else add64 acc.sum size
    smallest := min acc.smallest size }

/-- The member loop: `number = 0`, `sum = 0`, `smallest = ULLONG_MAX`, then
one step per device. -/
def member_loop (real_chunk_size : Int) (devices : List MdDevice) : Accu :=
  devices.foldl (loop_step real_chunk_size) { number := 0, sum := 0, smallest := ULLONG_MAX }

/-- The `switch (md_level)` of `calculate_region_and_topology`: the size and
the optimal io size from the accumulators. -/
def level_formula (md_level : MdLevel) (real_chunk_size : Int) (acc : Accu) : Nat × Int :=
  match md_level with
  | .RAID0 =>
    if acc.number ≥ 2 then (acc.sum, real_chunk_size * acc.number) else (0, 0)
  | .RAID1 =>
    if acc.number ≥ 2 then (acc.smallest, 0) else (0, 0)
  | .RAID4 | .RAID5 =>
    if acc.number ≥ 3 then
      (mul64 acc.smallest (acc.number - 1), real_chunk_size * ((acc.number : Int) - 1))
    else (0, 0)
  | .RAID6 =>
    if acc.number ≥ 4 then
      (mul64 acc.smallest (acc.number - 2), real_chunk_size * ((acc.number : Int) - 2))
    else (0, 0)
  | .RAID10 =>
    if acc.number ≥ 2 then
      (mul64 (mul64 (acc.smallest / toULL real_chunk_size) acc.number / 2) (toULL real_chunk_size),
        let optimal_io_size := Int.tdiv (real_chunk_size * acc.number) 2
        if acc.number % 2 = 1 then optimal_io_size * 2 else optimal_io_size)
    else (0, 0)
  | .CONTAINER | .UNKNOWN => (0, 0)

/-- The size and optimal io size that `calculate_region_and_topology` computes
for a level, a chunk size and a list of members. -/
def computed_size_and_io (md_level : MdLevel) (chunk_size : Nat) (devices : List MdDevice) :
    Nat × Int :=
  let rcs := real_chunk_size md_level chunk_size
  level_formula md_level rcs (member_loop rcs devices)

/-- `Md::Impl::calculate_region_and_topology`. -/
def calculate_region_and_topology (md : Md) : Md :=
  if md.exists_in_system then md
  else
    let r := computed_size_and_io md.md_level md.chunk_size md.devices
    set_topology (set_size md r.1) { alignment_offset := 0, optimal_io_size := r.2 }

/-! ## Operations on an Md -/

/-- The exceptions thrown by the operations below. -/
inductive StorageError where
  | Exception (msg : String)
  | WrongNumberOfChildren (seen expected : Nat)
  | HolderNotFound (source target : Nat)
  | DeviceNotFoundByName (name : String)
  | Aborted (msg : String)
  deriving DecidableEq, Repr

/-- Full match of `numeric_name_regex`, `DEV_DIR "/md/?([0-9]+)"` with
`DEV_DIR` being `/dev`. -/
def matches_numeric_name_regex (name : String) : Bool :=
  let cs := name.toList
  let digits := fun (l : List Char) => !l.isEmpty && l.all Char.isDigit
  cs.take 7 == "/dev/md".toList &&
    (digits (cs.drop 7) ||
      (cs.drop 7).take 1 == ['/'] && digits (cs.drop 8))

/-- Full match of `format1_name_regex`, `DEV_MD_DIR "/([^/ ]+)"` with
`DEV_MD_DIR` being `/dev/md`. -/
def matches_format1_name_regex (name : String) : Bool :=
  let cs := name.toList
  cs.take 8 == "/dev/md/".toList && !(cs.drop 8).isEmpty &&
    (cs.drop 8).all (fun c => c != '/' && c != ' ')

/-- `Md::Impl::is_valid_name`. -/
def is_valid_name (name : String) : Bool :=
  matches_numeric_name_regex name || matches_format1_name_regex name

/-- `Md::Impl::is_numeric`. -/
def is_numeric (name : String) : Bool := matches_numeric_name_regex name

/-- `Md::Impl::Impl(const string& name)`: the state set up by the initialiser
list, or the exception for an invalid name.  The fields of the base classes
(declared outside the embedded sources) start as an empty region, the default
topology and an active device; `exists_in_system` tells whether the
devicegraph the Md is created in is the system one.  For a numeric name the
sysfs name is the name without its first five characters (`/dev/`). -/
def Md.create (exists_in_system : Bool) (sid : Nat) (name : String) :
    Except StorageError Md :=
  if !is_valid_name name then .error (.Exception "invalid Md name")
  else .ok
    { sid := sid, name := name, md_level := .UNKNOWN, md_parity := .DEFAULT,
      chunk_size := 0, uuid := "", metadata := "", in_etc_mdadm := true,
      active := true, exists_in_system := exists_in_system,
      region := { start := 0, size := 0, block_size := 512 },
      topology := { alignment_offset := 0, optimal_io_size := 0 },
      devices := [],
      sysfs_name := if is_numeric name then String.mk (name.toList.drop 5) else "" }

/-- `Md::Impl::set_md_level`. -/
def set_md_level (md : Md) (md_level : MdLevel) : Md :=
  if md.md_level = md_level then md
  else calculate_region_and_topology { md with md_level := md_level }

/-- `Md::Impl::set_chunk_size`. -/
def set_chunk_size (md : Md) (chunk_size : Nat) : Md :=
  if md.chunk_size = chunk_size then md
  else calculate_region_and_topology { md with chunk_size := chunk_size }

/-- `Md::Impl::add_device`: `MdUser::create` links the block device to the Md
with a holder whose flags start cleared, then the size is recalculated. -/
def add_device (md : Md) (blk_device : BlkDevice) : Except StorageError Md :=
  if blk_device.num_children ≠ 0 then
    .error (.WrongNumberOfChildren blk_device.num_children 0)
  else
    .ok (calculate_region_and_topology
      { md with devices := md.devices ++
          [{ sid := blk_device.sid, size := blk_device.size, spare := false, faulty := false }] })

/-- `Md::Impl::remove_device`: `find_holder` throws when the block device is
not linked to the Md; otherwise the holder is removed and the size is
recalculated. -/
def remove_device (md : Md) (blk_device : BlkDevice) : Except StorageError Md :=
  if md.devices.any (fun d => d.sid == blk_device.sid) then
    .ok (calculate_region_and_topology
      { md with devices := md.devices.filter (fun d => d.sid != blk_device.sid) })
  else .error (.HolderNotFound blk_device.sid md.sid)

/-- `Md::Impl::parent_has_new_region`. -/
def parent_has_new_region (md : Md) (_parent : BlkDevice) : Md :=
  calculate_region_and_topology md

/-! ## Actions -/

/-- The kinds of action that `MdImpl.cc` constructs or names, as the flat
kinds of the spec's data model (in the source the classes `AddToEtcMdadm` and
`RemoveFromEtcMdadm` take their dependencies from the class `Modify`). -/
inductive ActionKind where
  | Create | Modify | Delete | Deactivate | Mount | AddToEtcMdadm | RemoveFromEtcMdadm
  deriving DecidableEq, Repr

/-- An action: its kind, the sid of the device it targets and the ordering
flags `first` and `last`, which a newly constructed action has cleared. -/
structure Action where
  kind : ActionKind
  sid : Nat
  first : Bool := false
  last : Bool := false
  deriving DecidableEq, Repr

/-- The actiongraph after a call together with the exception that left the
call, if any. -/
structure Outcome where
  actiongraph : List Action
  error : Option String
  deriving DecidableEq, Repr

/-- `Md::Impl::add_modify_actions`, the part after the call of
`BlkDevice::Impl::add_modify_actions` (declared outside the embedded sources):
`rhs` is the object the method is called on, `lhs` the argument, `actiongraph`
the vertices added so far. -/
def add_modify_actions (actiongraph : List Action) (rhs lhs : Md) : Outcome :=
  if lhs.name ≠ rhs.name then
    { actiongraph := actiongraph, error := some "cannot rename raid" }
  else if lhs.md_level ≠ rhs.md_level then
    { actiongraph := actiongraph, error := some "cannot change raid level" }
  else if lhs.metadata ≠ rhs.metadata then
    { actiongraph := actiongraph, error := some "cannot change raid metadata" }
  else if lhs.chunk_size ≠ rhs.chunk_size then
    { actiongraph := actiongraph, error := some "cannot change chunk size" }
  else if lhs.region ≠ rhs.region then
    { actiongraph := actiongraph, error := some "cannot change size" }
  else if !lhs.in_etc_mdadm && rhs.in_etc_mdadm then
    { actiongraph := actiongraph ++ [{ kind := .AddToEtcMdadm, sid := rhs.sid }], error := none }
  else if lhs.in_etc_mdadm && !rhs.in_etc_mdadm then
    { actiongraph := actiongraph ++ [{ kind := .RemoveFromEtcMdadm, sid := rhs.sid }],
      error := none }
  else
    { actiongraph := actiongraph, error := none }

/-! ## The wording of the specification -/

/-- The spec's `trim(S)`: `S` rounded down to a multiple of 4 KiB, less the
8 KiB metadata deduction, less the safety trim `min(128 MiB, t / 64)`. -/
def trim (S : Nat) : Nat :=
  let t := (S - S % 4096) - 8192
  t - min (128 * MiB) (t / 64)

/-- The spec's `floor_to_chunk(x, C)`: `x` rounded down to a multiple of `C`. -/
def floor_to_chunk (x C : Nat) : Nat := x / C * C

/-- The spec's effective chunk size: the configured chunk size, or 512 KiB
when it is 0, or 64 KiB for RAID1. -/
def effective_chunk_size (md_level : MdLevel) (chunk_size : Nat) : Nat :=
  if md_level = MdLevel.RAID1 then 64 * KiB
  else if chunk_size = 0 then 512 * KiB
  else chunk_size

/-- The usable size of a member of `md` as the member loop computes it. -/
def member_usable_size (md : Md) (d : MdDevice) : Nat :=
  usable_size (real_chunk_size md.md_level md.chunk_size) d.size

/-- The number `s` is the smallest among the usable sizes that the member loop
of the code computes (in its 64-bit arithmetic) for the members of `md`, spare
ones included. -/
def is_smallest_usable (md : Md) (s : Nat) : Prop :=
  (∃ d ∈ md.devices, s = member_usable_size md d) ∧
    ∀ d ∈ md.devices, s ≤ member_usable_size md d

/-- The spec's trimmed size of a member of `md`: its raw size after the
metadata deduction and the safety trim (`trim`), rounded down to a multiple of
the effective chunk size (`floor_to_chunk`). -/
def trimmed_member_size (md : Md) (d : MdDevice) : Nat :=
  floor_to_chunk (trim d.size) (effective_chunk_size md.md_level md.chunk_size)

/-- The spec's smallest trimmed member size: `s` is the smallest of the
trimmed sizes of the members of `md`, spare ones included. -/
def is_smallest_trimmed (md : Md) (s : Nat) : Prop :=
  (∃ d ∈ md.devices, s = trimmed_member_size md d) ∧
    ∀ d ∈ md.devices, s ≤ trimmed_member_size md d

/-- The sizing invariant: the stored size and topology of an Md that does not
exist in the system are the ones the sizing formula gives for its level,
chunk size and members. -/
def size_up_to_date (md : Md) : Prop :=
  md.exists_in_system = false →
    get_size md = (computed_size_and_io md.md_level md.chunk_size md.devices).1 ∧
    md.topology =
      { alignment_offset := 0,
        optimal_io_size := (computed_size_and_io md.md_level md.chunk_size md.devices).2 }

/-! ## Example inputs -/

/-- An Md that does not exist in the system, with the given level, chunk size
and members. -/
def planned_md (md_level : MdLevel) (chunk_size : Nat) (devices : List MdDevice) : Md :=
  { sid := 50, name := "/dev/md0", md_level := md_level, md_parity := .DEFAULT,
    chunk_size := chunk_size, uuid := "", metadata := "", in_etc_mdadm := true,
    active := true, exists_in_system := false,
    region := { start := 0, size := 0, block_size := 512 },
    topology := { alignment_offset := 0, optimal_io_size := 0 },
    devices := devices }

/-- An active (non-spare) member of the given size. -/
def active_member (sid size : Nat) : MdDevice :=
  { sid := sid, size := size, spare := false, faulty := false }

/-- A spare member of the given size. -/
def spare_member (sid size : Nat) : MdDevice :=
  { sid := sid, size := size, spare := true, faulty := false }

/-- Ten GiB in bytes. -/
def ten_GiB : Nat := 10737418240

/-- An Md as probed: it exists in the system and keeps the size found on disk. -/
def probed_md : Md :=
  { sid := 60, name := "/dev/md0", md_level := .RAID1, md_parity := .DEFAULT,
    chunk_size := 0, uuid := "", metadata := "1.0", in_etc_mdadm := true,
    active := true, exists_in_system := true,
    region := { start := 0, size := 10737287168, block_size := 512 },
    topology := { alignment_offset := 0, optimal_io_size := 0 },
    devices := [active_member 1 ten_GiB, active_member 2 ten_GiB] }

/-- A planned RAID1 over two members of 10 GiB whose size has been calculated. -/
def raid1_md : Md :=
  calculate_region_and_topology
    (planned_md MdLevel.RAID1 0 [active_member 1 ten_GiB, active_member 2 ten_GiB])

/-! ## The actiongraph -/

/-- Modelled from the spec: `Actiongraph::Impl` is declared outside the
embedded sources.  It is a directed graph over actions whose edges mean
"must commit before"; a vertex descriptor is the position of the action in
`vertices`, and `mount_root_filesystem` is the vertex of the action that
mounts the root filesystem, if any (`none` stands for `vertices().end()`). -/
structure Actiongraph where
  vertices : List Action
  edges : List (Nat × Nat)
  mount_root_filesystem : Option Nat
  deriving DecidableEq, Repr

/-- Modelled from the spec: `Actiongraph::Impl::add_edge` adds the edge
"`a` before `b`". -/
def add_edge (actiongraph : Actiongraph) (a b : Nat) : Actiongraph :=
  { actiongraph with edges := actiongraph.edges ++ [(a, b)] }

/-- Flags the actions of a chain: `first` on the first one, `last` on the last
one. -/
def flag_chain (n : Nat) : Nat → List Action → List Action
  | _, [] => []
  | i, a :: as => { a with first := i == 0, last := i + 1 == n } :: flag_chain n (i + 1) as

/-- Modelled from the spec: `Actiongraph::Impl::add_chain` is declared outside
the embedded sources.  It adds the actions as vertices in the given order,
with an edge from each action to the next one ("must commit in this order"),
and sets the ordering flags of the chain. -/
def add_chain (actiongraph : Actiongraph) (actions : List Action) : Actiongraph :=
  { actiongraph with
    vertices := actiongraph.vertices ++ flag_chain actions.length 0 actions
    edges := actiongraph.edges ++
      (List.range (actions.length - 1)).map
        (fun i => (actiongraph.vertices.length + i, actiongraph.vertices.length + i + 1)) }

/-- Assignment through the pointer of an action that is already a vertex:
applies `f` to the vertex at position `v`. -/
def update_vertex (f : Action → Action) : Nat → List Action → List Action
  | _, [] => []
  | 0, a :: as => f a :: as
  | v + 1, a :: as => a :: update_vertex f v as

/-- `Md::Impl::add_create_actions`. -/
def add_create_actions (actiongraph : Actiongraph) (md : Md) : Actiongraph :=
  let actions : List Action :=
    [{ kind := .Create, sid := md.sid }] ++
      (if md.in_etc_mdadm then [{ kind := .AddToEtcMdadm, sid := md.sid }] else [])
  let added := add_chain actiongraph actions
  -- see Encryption::Impl::add_create_actions()
  if md.in_etc_mdadm then
    { added with
      vertices :=
        update_vertex (fun a => { a with last := false }) (actiongraph.vertices.length + 1)
          (update_vertex (fun a => { a with last := true }) actiongraph.vertices.length
            added.vertices) }
  else added

/-- `Md::Impl::add_delete_actions`. -/
def add_delete_actions (actiongraph : Actiongraph) (md : Md) : Actiongraph :=
  let actions : List Action :=
    (if md.in_etc_mdadm then [{ kind := .RemoveFromEtcMdadm, sid := md.sid }] else []) ++
      (if md.active then [{ kind := .Deactivate, sid := md.sid }] else []) ++
      [{ kind := .Delete, sid := md.sid }]
  add_chain actiongraph actions

/-- `Action::AddToEtcMdadm::add_dependencies`; `Modify::add_dependencies`, which
is declared outside the embedded sources, is the parameter
`modify_add_dependencies`. -/
def AddToEtcMdadm.add_dependencies
    (modify_add_dependencies : Nat → Actiongraph → Actiongraph)
    (vertex : Nat) (actiongraph : Actiongraph) : Actiongraph :=
  let actiongraph := modify_add_dependencies vertex actiongraph
  match actiongraph.mount_root_filesystem with
  | some mount_root_filesystem => add_edge actiongraph mount_root_filesystem vertex
  | none => actiongraph

/-- An actiongraph with one vertex, the action that mounts the root
filesystem. -/
def root_mount_graph : Actiongraph :=
  { vertices := [{ kind := .Mount, sid := 7 }], edges := [], mount_root_filesystem := some 0 }

/-- An actiongraph without vertices. -/
def empty_actiongraph : Actiongraph :=
  { vertices := [], edges := [], mount_root_filesystem := none }

/-! ## The prober: pending holders -/

/-- `Prober::pending_holder_t`: the name of the block device still to be
found, the device `b` the holder leads to, and the function that builds the
holder.  The function works on the system devicegraph (of type `G`), gets the
block device found (of type `D`) and `b` (of type `B`), and returns the
devicegraph it leaves together with the exception it throws, if any. -/
structure pending_holder_t (G D B : Type) where
  name : String
  b : B
  add_holder_func : G → D → B → G × Option StorageError

/-- The members of `Prober` that the holder functions use: the system
devicegraph and the list of pending holders. -/
structure Prober (G D B : Type) where
  system : G
  pending_holders : List (pending_holder_t G D B)

/-- Modelled from the spec: `BlkDevice::Impl::exists_by_any_name` is declared
outside the embedded sources.  Names are resolved against the block devices of
the devicegraph, by name or by an alternate udev-style identifier; the
parameter `lookup` is that resolution. -/
def exists_by_any_name {G D : Type} (lookup : G → String → Option D) (system : G)
    (name : String) : Bool :=
  (lookup system name).isSome

/-- Modelled from the spec: `BlkDevice::Impl::find_by_any_name` (see
`exists_by_any_name`); it throws when the name does not resolve. -/
def find_by_any_name {G D : Type} (lookup : G → String → Option D) (system : G)
    (name : String) : Except StorageError D :=
  match lookup system name with
  | some a => .ok a
  | none => .error (.DeviceNotFoundByName name)

/-- `Prober::add_holder`: the prober it leaves and the exception thrown, if
any. -/
def Prober.add_holder {G D B : Type} (lookup : G → String → Option D)
    (prober : Prober G D B) (name : String) (b : B)
    (add_holder_func : G → D → B → G × Option StorageError) :
    Prober G D B × Option StorageError :=
  if exists_by_any_name lookup prober.system name then
    match find_by_any_name lookup prober.system name with
    | .ok a =>
      ({ prober with system := (add_holder_func prober.system a b).1 },
        (add_holder_func prober.system a b).2)
    | .error e => (prober, some e)
  else
    ({ prober with
        pending_holders := prober.pending_holders ++
          [{ name := name, b := b, add_holder_func := add_holder_func }] }, none)

/-- The loop of `Prober::flush_pending_holders`: an exception of
`find_by_any_name` or of the holder function is logged and thrown again, which
ends the loop. -/
def flush_loop {G D B : Type} (lookup : G → String → Option D) :
    List (pending_holder_t G D B) → G → G × Option StorageError
  | [], system => (system, none)
  | pending_holder :: rest, system =>
    match find_by_any_name lookup system pending_holder.name with
    | .error e => (system, some e)
    | .ok a =>
      match pending_holder.add_holder_func system a pending_holder.b with
      | (system, some e) => (system, some e)
      | (system, none) => flush_loop lookup rest system

/-- `Prober::flush_pending_holders`: the list is cleared after the loop, which
an exception does not reach. -/
def Prober.flush_pending_holders {G D B : Type} (lookup : G → String → Option D)
    (prober : Prober G D B) : Prober G D B × Option StorageError :=
  match flush_loop lookup prober.pending_holders prober.system with
  | (system, some e) => ({ prober with system := system }, some e)
  | (system, none) => ({ system := system, pending_holders := [] }, none)

/-- The constructor `Prober::Prober`: the passes in their order; an exception
that leaves a pass leaves the constructor.  The passes 1a, 1b and 1c call
probing functions of the device classes and are parameters, pass 1d is
`flush_pending_holders`, pass 2 works on the system devicegraph. -/
def Prober.probe {G D B : Type} (lookup : G → String → Option D)
    (pass_1a pass_1b pass_1c : Prober G D B → Prober G D B × Option StorageError)
    (pass_2 : G → G × Option StorageError)
    (prober : Prober G D B) : Prober G D B × Option StorageError :=
  match pass_1a prober with
  | (prober, some e) => (prober, some e)
  | (prober, none) =>
    match pass_1b prober with
    | (prober, some e) => (prober, some e)
    | (prober, none) =>
      match pass_1c prober with
      | (prober, some e) => (prober, some e)
      | (prober, none) =>
        match prober.flush_pending_holders lookup with
        | (prober, some e) => (prober, some e)
        | (prober, none) =>
          ({ prober with system := (pass_2 prober.system).1 }, (pass_2 prober.system).2)

/-- The holder functions of the pending holders in `pending` have been run,
each one once and in the order of the list, each with the block device its
name resolves to at that moment and without an exception, leading from the
devicegraph `system` to the devicegraph `system'`. -/
inductive built_in_order {G D B : Type} (lookup : G → String → Option D) :
    List (pending_holder_t G D B) → G → G → Prop where
  | nil (system : G) : built_in_order lookup [] system system
  | cons (pending_holder : pending_holder_t G D B) (rest : List (pending_holder_t G D B))
      (system system1 system2 : G) (a : D) :
      lookup system pending_holder.name = some a →
      pending_holder.add_holder_func system a pending_holder.b = (system1, none) →
      built_in_order lookup rest system1 system2 →
      built_in_order lookup (pending_holder :: rest) system system2

/-- A toy devicegraph for examples: the names of its block devices and the
holders built so far, as pairs of a block device name and the sid of `b`. -/
structure ToyGraph where
  names : List String
  holders : List (String × Nat)
  deriving DecidableEq, Repr

/-- Name resolution in a `ToyGraph`. -/
def toy_lookup (system : ToyGraph) (name : String) : Option String :=
  if name ∈ system.names then some name else none

/-- A holder function on a `ToyGraph`: records the holder. -/
def toy_add_holder (system : ToyGraph) (a : String) (b : Nat) :
    ToyGraph × Option StorageError :=
  ({ system with holders := system.holders ++ [(a, b)] }, none)

/-- A prober whose devicegraph knows `/dev/sda1` and that has two pending
holders, the second one for a name that does not resolve. -/
def toy_prober : Prober ToyGraph String Nat :=
  { system := { names := ["/dev/sda1"], holders := [] },
    pending_holders :=
      [{ name := "/dev/sda1", b := 50, add_holder_func := toy_add_holder },
        { name := "/dev/sdz1", b := 50, add_holder_func := toy_add_holder },
        { name := "/dev/sda1", b := 51, add_holder_func := toy_add_holder }] }

/-! ## The prober: pass 2 -/

/-- Modelled from the spec: the enumeration `FsType` is declared outside the
embedded sources; these are the values pass 2 names and further values of the
enumeration. -/
inductive FsType where
  | UNKNOWN | AUTO | REISERFS | EXT2 | EXT3 | EXT4 | BTRFS | VFAT | XFS | JFS | HFS | NTFS
  | SWAP | HFSPLUS | NFS | NFS4 | TMPFS | ISO9660 | UDF | NILFS2 | MINIX | NTFS3G | F2FS
  | EXFAT
  deriving DecidableEq, Repr

/-- The condition under which pass 2 logs "detected unsupported filesystem"
and goes on to the next block device. -/
def unsupported_filesystem (fs_type : FsType) : Bool :=
  fs_type != .EXT2 && fs_type != .EXT3 &&
  fs_type != .EXT4 && fs_type != .BTRFS &&
  fs_type != .REISERFS && fs_type != .XFS &&
  fs_type != .SWAP && fs_type != .NTFS &&
  fs_type != .VFAT && fs_type != .ISO9660 &&
  fs_type != .UDF && fs_type != .JFS

/-- The fields of a `Blkid` entry that pass 2 reads. -/
structure BlkidEntry where
  is_fs : Bool
  fs_type : FsType
  deriving DecidableEq, Repr

/-- A block device of the system devicegraph as pass 2 looks at it: identity,
name, `is_active()` and the sids of its children. -/
structure GraphBlkDevice where
  sid : Nat
  name : String
  active : Bool
  children : List Nat
  deriving DecidableEq, Repr

/-- A block filesystem created by `create_blk_filesystem`: its own sid, its
type and the sid of the block device it is on. -/
structure BlkFilesystem where
  sid : Nat
  fs_type : FsType
  blk_device : Nat
  deriving DecidableEq, Repr

/-- The result of the loop of pass 2: the block devices as the loop leaves
them, the filesystems it created (in the order of creation), the next unused
sid and the exception that ended the loop, if any. -/
structure Pass2Result where
  blk_devices : List GraphBlkDevice
  created : List BlkFilesystem
  next_sid : Nat
  error : Option StorageError
  deriving DecidableEq, Repr

/-- The loop of pass 2 in `Prober::Prober` over `BlkDevice::get_all(system)`.
`blkid` is `Blkid::find_by_name`, `probe_pass_2` stands for `probe_pass_2a`
followed by `probe_pass_2b` of the new filesystem (the exception they throw,
if any), `next_sid` is the sid the next new device gets.
`create_blk_filesystem` makes the new filesystem a child of the block
device. -/
def pass_2_loop (blkid : String → Option BlkidEntry)
    (probe_pass_2 : BlkFilesystem → Option StorageError) :
    List GraphBlkDevice → Nat → Pass2Result
  | [], next_sid => { blk_devices := [], created := [], next_sid := next_sid, error := none }
  | blk_device :: rest, next_sid =>
    let skip : Pass2Result :=
      let r := pass_2_loop blkid probe_pass_2 rest next_sid
      { r with blk_devices := blk_device :: r.blk_devices }
    -- if (blk_device->has_children()) continue;
    if blk_device.children ≠ [] then skip
    -- if (!blk_device->get_impl().is_active()) continue;
    else if !blk_device.active then skip
    else
      match blkid blk_device.name with
      | none => skip
      | some entry =>
        if entry.is_fs then
          if unsupported_filesystem entry.fs_type then skip
          else
            let blk_filesystem : BlkFilesystem :=
              { sid := next_sid, fs_type := entry.fs_type, blk_device := blk_device.sid }
            let blk_device' : GraphBlkDevice :=
              { blk_device with children := blk_device.children ++ [next_sid] }
            match probe_pass_2 blk_filesystem with
            | some e =>
              { blk_devices := blk_device' :: rest, created := [blk_filesystem],
                next_sid := next_sid + 1, error := some e }
            | none =>
              let r := pass_2_loop blkid probe_pass_2 rest (next_sid + 1)
              { r with
                blk_devices := blk_device' :: r.blk_devices
                created := blk_filesystem :: r.created }
        else skip

/-- What pass 2 has done to a block device `d`, left as `d'`: a device with a
child or an inactive device is untouched, and a device is touched only if it
had no child, was active and `blkid` reports a filesystem of a supported type
for its name. -/
def pass_2_respects (blkid : String → Option BlkidEntry) (d d' : GraphBlkDevice) : Prop :=
  d'.sid = d.sid ∧ d'.name = d.name ∧ d'.active = d.active ∧
    ((d.children ≠ [] ∨ d.active = false) → d' = d) ∧
    (d' ≠ d → d.children = [] ∧ d.active = true ∧
      ∃ entry, blkid d.name = some entry ∧ entry.is_fs = true ∧
        unsupported_filesystem entry.fs_type = false)

/-- The filesystem `f` is on a block device of `devices` that had no child,
was active, and for whose name `blkid` reports a filesystem of the type of
`f`, a supported one. -/
def on_unused_active_device (blkid : String → Option BlkidEntry)
    (devices : List GraphBlkDevice) (f : BlkFilesystem) : Prop :=
  ∃ d ∈ devices, f.blk_device = d.sid ∧ d.children = [] ∧ d.active = true ∧
    ∃ entry, blkid d.name = some entry ∧ entry.is_fs = true ∧
      entry.fs_type = f.fs_type ∧ unsupported_filesystem f.fs_type = false

/-- Block devices after the passes 1a to 1d: a disk with two partitions as
children, a partition with an ext4 filesystem signature, an inactive
partition, a partition used by an Md, and that Md. -/
def probed_blk_devices : List GraphBlkDevice :=
  [{ sid := 42, name := "/dev/sda", active := true, children := [43, 44, 45] },
    { sid := 43, name := "/dev/sda1", active := true, children := [] },
    { sid := 44, name := "/dev/sda2", active := false, children := [] },
    { sid := 45, name := "/dev/sda3", active := true, children := [46] },
    { sid := 46, name := "/dev/md0", active := true, children := [] }]

/-- A `blkid` that reports ext4 on every partition of `/dev/sda` and on the
disk itself, and xfs on `/dev/md0`. -/
def example_blkid (name : String) : Option BlkidEntry :=
  if name = "/dev/md0" then some { is_fs := true, fs_type := .XFS }
  else some { is_fs := true, fs_type := .EXT4 }

/-! ## The prober: MD RAIDs -/

/-- The fields of `MdadmDetail` that the Md prober reads. -/
structure MdadmDetail where
  devname : String
  uuid : String
  metadata : String
  level : MdLevel
  deriving DecidableEq, Repr

/-- `ProcMdstat::Device`. -/
structure ProcMdstatDevice where
  name : String
  spare : Bool
  faulty : Bool
  deriving DecidableEq, Repr

/-- The fields of `ProcMdstat::Entry` that the Md prober reads. -/
structure ProcMdstatEntry where
  md_parity : MdParity
  chunk_size : Nat
  inactive : Bool
  is_container : Bool
  has_container : Bool
  devices : List ProcMdstatDevice
  deriving DecidableEq, Repr

/-- The queries the Md prober makes, as functions that may throw:
`SystemInfo::getMdadmDetail(name)`, `getMdLinks().find(short_name)`,
`getProcMdstat().get_entry(name)` and `getEtcMdadm().has_entry(uuid)`, and the
probing functions of other classes that it calls: `probe_pass_1a` of the base
class `Partitionable` (the Md it leaves and the exception, if any), and the
creation and `probe_pass_1a` of `MdContainer` and `MdMember` (the exception,
if any). -/
structure MdProbeEnv where
  getMdadmDetail : String → Except StorageError MdadmDetail
  getMdLinks : String → Option (List String)
  get_entry : String → Except StorageError ProcMdstatEntry
  etc_mdadm_has_entry : String → Bool
  partitionable_probe_pass_1a : Md → Md × Option StorageError
  md_container_create : String → Option StorageError
  md_container_probe_pass_1a : String → Option StorageError
  md_member_create : String → Option StorageError
  md_member_probe_pass_1a : String → Option StorageError

/-- A device that `probe_mds` has created in the system devicegraph. -/
inductive ProbedDevice where
  | md (md : Md)
  | md_container (name : String)
  | md_member (name : String)
  deriving DecidableEq, Repr

/-- The system devicegraph as `probe_mds` changes it: the devices created so
far and the sid the next new device gets. -/
structure ProbedSystem where
  devices : List ProbedDevice
  next_sid : Nat
  deriving DecidableEq, Repr

/-- `Md::Impl::probe_pass_1a`: the Md as the function leaves it and the
exception that leaves it, if any. -/
def Md.probe_pass_1a (env : MdProbeEnv) (md : Md) : Md × Option StorageError :=
  match env.partitionable_probe_pass_1a md with
  | (md, some e) => (md, some e)
  | (md, none) =>
    match env.get_entry md.sysfs_name with
    | .error e => (md, some e)
    | .ok entry =>
      let md := { md with md_parity := entry.md_parity, chunk_size := entry.chunk_size }
      match env.getMdadmDetail md.name with
      | .error e => (md, some e)
      | .ok mdadm_detail =>
        let md := { md with
          uuid := mdadm_detail.uuid
          metadata := mdadm_detail.metadata
          md_level := mdadm_detail.level }
        ({ md with in_etc_mdadm := env.etc_mdadm_has_entry md.uuid }, none)

/-- The name that `probe_mds` settles on for an entry once `mdadm --detail`
has been read. -/
def probed_md_name (env : MdProbeEnv) (short_name : String) (mdadm_detail : MdadmDetail) :
    String :=
  if !mdadm_detail.devname.isEmpty then
    match env.getMdLinks short_name with
    | some links =>
      if mdadm_detail.devname ∈ links then "/dev/md" ++ "/" ++ mdadm_detail.devname
      else "/dev" ++ "/" ++ short_name
    | none => "/dev" ++ "/" ++ short_name
  else "/dev" ++ "/" ++ short_name

/-- The `try` block of `probe_mds` for one entry of `/sys/block`: the system
as the block leaves it, the name used in the error message and the exception
that left the block, if any. -/
def probe_md (env : MdProbeEnv) (system : ProbedSystem) (short_name : String) :
    ProbedSystem × String × Option StorageError :=
  match env.getMdadmDetail ("/dev" ++ "/" ++ short_name) with
  | .error e => (system, "/dev" ++ "/" ++ short_name, some e)
  | .ok mdadm_detail =>
    let name := probed_md_name env short_name mdadm_detail
    match env.get_entry short_name with
    | .error e => (system, name, some e)
    | .ok entry =>
      if entry.is_container then
        match env.md_container_create name with
        | some e => (system, name, some e)
        | none =>
          ({ devices := system.devices ++ [.md_container name],
             next_sid := system.next_sid + 1 }, name, env.md_container_probe_pass_1a name)
      else if entry.has_container then
        match env.md_member_create name with
        | some e => (system, name, some e)
        | none =>
          ({ devices := system.devices ++ [.md_member name],
             next_sid := system.next_sid + 1 }, name, env.md_member_probe_pass_1a name)
      else
        match Md.create true system.next_sid name with
        | .error e => (system, name, some e)
        | .ok md =>
          -- md->get_impl().set_active(!entry.inactive);
          let md := { md with active := !entry.inactive }
          ({ devices := system.devices ++ [.md (Md.probe_pass_1a env md).1],
             next_sid := system.next_sid + 1 }, name, (Md.probe_pass_1a env md).2)

/-- Modelled from the spec: `error_callback` is declared outside the embedded
sources.  It reports the failure through `error(message, detail)` of the probe
callbacks, whose answer says whether to continue: any other answer aborts
probing; without callbacks the exception is thrown again.  The result is the
report made, if any, and the exception that leaves `error_callback`, if any. -/
def error_callback (probe_callbacks : Option (String → StorageError → Bool))
    (message : String) (exception : StorageError) :
    List (String × StorageError) × Option StorageError :=
  match probe_callbacks with
  | some error =>
    ([(message, exception)],
      if error message exception then none else some (.Aborted "aborted"))
  | none => ([], some exception)

/-- The result of `probe_mds`: the system, the errors reported through the
callbacks so far, and the exception that left the function, if any. -/
structure ProbeMdsResult where
  system : ProbedSystem
  reported : List (String × StorageError)
  error : Option StorageError
  deriving DecidableEq, Repr

/-- `Md::Impl::probe_mds`, the loop over `get_sys_block_entries().mds`. -/
def probe_mds (env : MdProbeEnv) (probe_callbacks : Option (String → StorageError → Bool)) :
    List String → ProbedSystem → List (String × StorageError) → ProbeMdsResult
  | [], system, reported => { system := system, reported := reported, error := none }
  | short_name :: rest, system, reported =>
    match probe_md env system short_name with
    | (system, _, none) => probe_mds env probe_callbacks rest system reported
    | (system, name, some exception) =>
      match error_callback probe_callbacks ("Probing MD RAID " ++ name ++ " failed")
          exception with
      | (reports, some e) =>
        { system := system, reported := reported ++ reports, error := some e }
      | (reports, none) => probe_mds env probe_callbacks rest system (reported ++ reports)

/-- The systems that the entries of `/sys/block` are probed in, one after the
other, with the outcome of each entry: whether it failed, and the system it
left. -/
def entry_outcomes (env : MdProbeEnv) :
    List String → ProbedSystem → List (String × ProbedSystem × String × Option StorageError)
  | [], _ => []
  | short_name :: rest, system =>
    (short_name, probe_md env system short_name) ::
      entry_outcomes env rest (probe_md env system short_name).1

/-- The report that `probe_mds` makes for the outcome of an entry, if it
failed. -/
def report_of_outcome (o : String × ProbedSystem × String × Option StorageError) :
    Option (String × StorageError) :=
  match o.2.2.2 with
  | some e => some ("Probing MD RAID " ++ o.2.2.1 ++ " failed", e)
  | none => none

/-- A system in which `mdadm --detail` fails for `/dev/md1`, and in which the
array `md127` is linked as `/dev/md/data` but `mdadm --detail /dev/md/data`
fails; `md0` is probed without a failure. -/
def example_md_env : MdProbeEnv :=
  { getMdadmDetail := fun name =>
      if name = "/dev/md0" then
        .ok { devname := "", uuid := "u0", metadata := "1.0", level := .RAID1 }
      else if name = "/dev/md127" then
        .ok { devname := "data", uuid := "u127", metadata := "1.0", level := .RAID0 }
      else .error (.Exception "mdadm --detail failed")
    getMdLinks := fun short_name => if short_name = "md127" then some ["data"] else none
    get_entry := fun _ =>
      .ok { md_parity := .DEFAULT, chunk_size := 0, inactive := false, is_container := false,
            has_container := false, devices := [] }
    etc_mdadm_has_entry := fun _ => false
    partitionable_probe_pass_1a := fun md =>
      ({ md with sysfs_name := if md.name = "/dev/md/data" then "md127" else md.sysfs_name },
        none)
    md_container_create := fun _ => none
    md_container_probe_pass_1a := fun _ => none
    md_member_create := fun _ => none
    md_member_probe_pass_1a := fun _ => none }

/-- The system devicegraph before `probe_mds`. -/
def empty_system : ProbedSystem := { devices := [], next_sid := 42 }

/-- Probe callbacks that answer "continue" (as `ProbeCallbacksRecorder::error`
does). -/
def continue_callbacks : String → StorageError → Bool := fun _ _ => true

/-! ## Parities, checks and comparison -/

/-- `Md::Impl::get_allowed_md_parities`. -/
def get_allowed_md_parities (md : Md) : List MdParity :=
  match md.md_level with
  | .UNKNOWN => []
  | .RAID0 | .RAID1 | .RAID4 => []
  | .RAID5 =>
    [.DEFAULT, .LEFT_ASYMMETRIC, .LEFT_SYMMETRIC, .RIGHT_ASYMMETRIC, .RIGHT_SYMMETRIC,
      .FIRST, .LAST]
  | .RAID6 =>
    [.DEFAULT, .LEFT_ASYMMETRIC, .LEFT_SYMMETRIC, .RIGHT_ASYMMETRIC, .RIGHT_SYMMETRIC,
      .FIRST, .LAST, .LEFT_ASYMMETRIC_6, .LEFT_SYMMETRIC_6, .RIGHT_ASYMMETRIC_6,
      .RIGHT_SYMMETRIC_6, .FIRST_6]
  | .RAID10 =>
    if number_of_devices md ≤ 2 then [.DEFAULT, .NEAR_2, .OFFSET_2, .FAR_2]
    else [.DEFAULT, .NEAR_2, .OFFSET_2, .FAR_2, .NEAR_3, .OFFSET_3, .FAR_3]
  | .CONTAINER => []

/-- `boost::integer::lcm` on `unsigned long long`: 0 if an argument is 0,
otherwise `a / gcd(a, b) * b` in 64-bit arithmetic. -/
def lcm64 (a b : Nat) : Nat :=
  if a = 0 ∨ b = 0 then 0 else mul64 (a / Nat.gcd a b) b

/-- Modelled from the spec: `is_multiple_of` of `storage/Utils/Math.h` is
declared outside the embedded sources; `i` is a multiple of `j`. -/
def is_multiple_of (i j : Nat) : Bool := i % j == 0

/-- Modelled from the spec: `is_power_of_two` of `storage/Utils/Math.h` is
declared outside the embedded sources; `i` is a power of two. -/
def is_power_of_two (i : Nat) : Bool := i != 0 && 2 ^ Nat.log2 i == i

/-- The text of the error "smaller than 4 KiB". -/
def chunk_size_below_4KiB_text (name : String) : String :=
  "Chunk size of MD " ++ name ++ " is smaller than 4 KiB."

/-- The text of the error "not a multiple of the sector size of the devices". -/
def chunk_size_not_multiple_text (name : String) : String :=
  "Chunk size of MD " ++ name ++ " is not a multiple of the sector size of the devices."

/-- The text of the error "smaller than the page size". -/
def chunk_size_below_page_size_text (name : String) : String :=
  "Chunk size of MD " ++ name ++ " is smaller than the page size."

/-- The text of the error "not a power of two". -/
def chunk_size_not_power_of_two_text (name : String) : String :=
  "Chunk size of MD " ++ name ++ " is not a power of two."

/-- The value of `tmp` after the loop over the devices in the RAID0 case of
`check`: it starts at `1 * KiB` and takes the least common multiple with the
block size of each device. -/
def sector_size_lcm (block_sizes : List Nat) : Nat :=
  block_sizes.foldl lcm64 (1 * KiB)

/-- The `switch (md_level)` of `Md::Impl::check`: the errors reported through
`check_callbacks->error`, in order.  `block_size_of` gives
`get_region().get_block_size()` of a member, `page_size` is
`get_arch().get_page_size()`. -/
def chunk_size_errors (block_size_of : MdDevice → Nat) (page_size : Nat) (md : Md) :
    List String :=
  match md.md_level with
  | .RAID0 =>
    (if md.chunk_size < 4 * KiB then [chunk_size_below_4KiB_text md.name] else []) ++
      (if !is_multiple_of md.chunk_size (sector_size_lcm (md.devices.map block_size_of)) then
        [chunk_size_not_multiple_text md.name] else [])
  | .RAID4 | .RAID5 | .RAID6 | .RAID10 =>
    (if md.chunk_size < page_size then [chunk_size_below_page_size_text md.name] else []) ++
      (if !is_power_of_two md.chunk_size then [chunk_size_not_power_of_two_text md.name]
        else [])
  | _ => []

/-- The errors reported to the check callbacks so far and the exception that
left `check`, if any. -/
structure CheckResult where
  reported : List String
  error : Option StorageError
  deriving DecidableEq, Repr

/-- `Md::Impl::check`.  `base_check` is the outcome of
`Partitionable::Impl::check`, which is declared outside the embedded sources;
`with_callbacks` tells whether `check_callbacks` is not null. -/
def check (base_check : CheckResult) (block_size_of : MdDevice → Nat) (page_size : Nat)
    (with_callbacks : Bool) (md : Md) : CheckResult :=
  match base_check.error with
  | some e => { reported := base_check.reported, error := some e }
  | none =>
    if !is_valid_name md.name then
      { reported := base_check.reported, error := some (.Exception "invalid name") }
    else if with_callbacks && decide (md.chunk_size > 0) then
      { reported := base_check.reported ++ chunk_size_errors block_size_of page_size md,
        error := none }
    else { reported := base_check.reported, error := none }

/-- `Md::Impl::equal`; `base_equal` is `Partitionable::Impl::equal`, which is
declared outside the embedded sources. -/
def equal (base_equal : Md → Md → Bool) (md rhs : Md) : Bool :=
  if !base_equal md rhs then false
  else
    md.md_level == rhs.md_level && md.md_parity == rhs.md_parity &&
      md.chunk_size == rhs.chunk_size && md.metadata == rhs.metadata &&
      md.uuid == rhs.uuid && md.in_etc_mdadm == rhs.in_etc_mdadm

/-! ## Saving and loading -/

/-- `EnumTraits<MdLevel>::names`, through `toString`. -/
def MdLevel.toString : MdLevel → String
  | .UNKNOWN => "unknown"
  | .RAID0 => "RAID0"
  | .RAID1 => "RAID1"
  | .RAID4 => "RAID4"
  | .RAID5 => "RAID5"
  | .RAID6 => "RAID6"
  | .RAID10 => "RAID10"
  | .CONTAINER => "CONTAINER"

/-- `EnumTraits<MdParity>::names`, through `toString`. -/
def MdParity.toString : MdParity → String
  | .DEFAULT => "default"
  | .LEFT_ASYMMETRIC => "left-asymmetric"
  | .LEFT_SYMMETRIC => "left-symmetric"
  | .RIGHT_ASYMMETRIC => "right-asymmetric"
  | .RIGHT_SYMMETRIC => "right-symmetric"
  | .FIRST => "parity-first"
  | .LAST => "parity-last"
  | .LEFT_ASYMMETRIC_6 => "left-asymmetric-6"
  | .LEFT_SYMMETRIC_6 => "left-symmetric-6"
  | .RIGHT_ASYMMETRIC_6 => "right-asymmetric-6"
  | .RIGHT_SYMMETRIC_6 => "right-symmetric-6"
  | .FIRST_6 => "parity-first-6"
  | .NEAR_2 => "n2"
  | .OFFSET_2 => "o2"
  | .FAR_2 => "f2"
  | .NEAR_3 => "n3"
  | .OFFSET_3 => "o3"
  | .FAR_3 => "f3"

/-- The values of `MdLevel`, in the order of the names. -/
def MdLevel.all : List MdLevel :=
  [.UNKNOWN, .RAID0, .RAID1, .RAID4, .RAID5, .RAID6, .RAID10, .CONTAINER]

/-- The values of `MdParity`, in the order of the names. -/
def MdParity.all : List MdParity :=
  [.DEFAULT, .LEFT_ASYMMETRIC, .LEFT_SYMMETRIC, .RIGHT_ASYMMETRIC, .RIGHT_SYMMETRIC,
    .FIRST, .LAST, .LEFT_ASYMMETRIC_6, .LEFT_SYMMETRIC_6, .RIGHT_ASYMMETRIC_6,
    .RIGHT_SYMMETRIC_6, .FIRST_6, .NEAR_2, .OFFSET_2, .FAR_2, .NEAR_3, .OFFSET_3, .FAR_3]

/-- Modelled from the spec: `toValueWithFallback` of `storage/Utils/Enum.h` is
declared outside the embedded sources; the value whose name is `str`, or the
fallback if there is none. -/
def MdLevel.toValueWithFallback (str : String) (fallback : MdLevel) : MdLevel :=
  (MdLevel.all.find? (fun v => v.toString == str)).getD fallback

/-- Modelled from the spec: `toValueWithFallback` for `MdParity`. -/
def MdParity.toValueWithFallback (str : String) (fallback : MdParity) : MdParity :=
  (MdParity.all.find? (fun v => v.toString == str)).getD fallback

/-- Modelled from the spec: the value of an attribute of a persisted element;
the spec describes the persisted graph as a tree of typed element records
with attributes as key/value. -/
inductive XmlValue where
  | text (value : String)
  | number (value : Nat)
  | flag (value : Bool)
  deriving DecidableEq, Repr

/-- Modelled from the spec: an element of the persisted graph, the list of its
children as pairs of name and value. -/
abbrev XmlNode := List (String × XmlValue)

/-- Modelled from the spec: `setChildValue` of `storage/Utils/XmlFile.h` adds
a child. -/
def setChildValue (node : XmlNode) (name : String) (value : XmlValue) : XmlNode :=
  node ++ [(name, value)]

/-- Modelled from the spec: `setChildValueIf` adds the child if the condition
holds. -/
def setChildValueIf (node : XmlNode) (name : String) (value : XmlValue) (cond : Bool) :
    XmlNode :=
  if cond then setChildValue node name value else node

/-- Modelled from the spec: `getChildValue` looks up the first child with the
given name. -/
def getChildValue (node : XmlNode) (name : String) : Option XmlValue :=
  (node.find? (fun child => child.1 == name)).map (fun child => child.2)

/-- `Md::Impl::save`; `node` holds what `Partitionable::Impl::save` has
written. -/
def Md.save (node : XmlNode) (md : Md) : XmlNode :=
  let node := setChildValue node "md-level" (.text md.md_level.toString)
  let node := setChildValueIf node "md-parity" (.text md.md_parity.toString)
    (md.md_parity != MdParity.DEFAULT)
  let node := setChildValueIf node "chunk-size" (.number md.chunk_size) (md.chunk_size != 0)
  let node := setChildValueIf node "uuid" (.text md.uuid) (!md.uuid.isEmpty)
  let node := setChildValueIf node "metadata" (.text md.metadata) (!md.metadata.isEmpty)
  setChildValueIf node "in-etc-mdadm" (.flag md.in_etc_mdadm) (!md.in_etc_mdadm)

/-- `Md::Impl::Impl(const xmlNode* node)`; `base` is the state that
`Partitionable::Impl(node)` has loaded.  A child that is missing or not of
the type asked for leaves the field at the value of the initialiser list. -/
def Md.load (base : Md) (node : XmlNode) : Md :=
  { base with
    md_level :=
      match getChildValue node "md-level" with
      | some (.text tmp) => MdLevel.toValueWithFallback tmp .RAID0
      | _ => .UNKNOWN
    md_parity :=
      match getChildValue node "md-parity" with
      | some (.text tmp) => MdParity.toValueWithFallback tmp .DEFAULT
      | _ => .DEFAULT
    chunk_size :=
      match getChildValue node "chunk-size" with
      | some (.number value) => value
      | _ => 0
    uuid :=
      match getChildValue node "uuid" with
      | some (.text value) => value
      | _ => ""
    metadata :=
      match getChildValue node "metadata" with
      | some (.text value) => value
      | _ => ""
    in_etc_mdadm :=
      match getChildValue node "in-etc-mdadm" with
      | some (.flag value) => value
      | _ => true }

/-- The names of the children that `Md::Impl::save` writes. -/
def md_child_names : List String :=
  ["md-level", "md-parity", "chunk-size", "uuid", "metadata", "in-etc-mdadm"]

/-- The six fields of an Md that `save` writes and the constructor from a node
reads. -/
def persisted_md_fields (md : Md) : MdLevel × MdParity × Nat × String × String × Bool :=
  (md.md_level, md.md_parity, md.chunk_size, md.uuid, md.metadata, md.in_etc_mdadm)

/-! ## Nfs names -/

/-- `Nfs::Impl::is_valid_name`; `size()` counts bytes. -/
def Nfs.is_valid_name (name : String) : Bool :=
  decide (name.utf8ByteSize ≥ 3) && name.toList.head? != some '/' &&
    name.toList.contains ':'

/-- `Nfs::Impl::split_name`: `pos` is `name.find(":")`, with the length of the
name standing for `npos`. -/
def Nfs.split_name (name : String) : Except StorageError (String × String) :=
  let pos := name.toList.indexOf ':'
  if pos = name.toList.length then .error (.Exception "invalid Nfs name")
  else .ok (String.mk (name.toList.take pos), String.mk (name.toList.drop (pos + 1)))

/-- `boost::replace_all_copy(path, "//", "/")`: the occurrences of `//` are
found from left to right without overlap, and the replacement is not searched
again. -/
def replace_all_double_slash : List Char → List Char
  | '/' :: '/' :: rest => '/' :: replace_all_double_slash rest
  | c :: rest => c :: replace_all_double_slash rest
  | [] => []

/-- `Nfs::Impl::canonical_path`. -/
def Nfs.canonical_path (path : String) : String :=
  let ret := replace_all_double_slash path.toList
  if ret.length ≥ 2 ∧ ret.getLast? = some '/' then String.mk ret.dropLast
  else String.mk ret

/-- `Nfs::Impl::get_mount_name`, from the server and the path of the Nfs. -/
def Nfs.get_mount_name (server path : String) : String :=
  server ++ ":" ++ path

/-- The sum of the raw sizes of the members of an Md that are not spare. -/
def raw_size_sum (md : Md) : Nat :=
  ((md.devices.filter (fun d => !d.spare)).map (fun d => d.size)).sum

/-! ## Lemmas on the member loop -/

theorem foldl_loop_number (rcs : Int) (ds : List MdDevice) (acc : Accu) :
    (ds.foldl (loop_step rcs) acc).number = acc.number + ds.countP (fun d => !d.spare) := by
  induction ds generalizing acc with
  | nil => simp
  | cons d ds ih =>
    rw [List.foldl_cons, ih, List.countP_cons]
    cases hs : d.spare
    · simp [loop_step, hs]; omega
    · simp [loop_step, hs]

theorem member_loop_number (rcs : Int) (md : Md) :
    (member_loop rcs md.devices).number = number_of_devices md := by
  simp [member_loop, number_of_devices, foldl_loop_number]

theorem get_size_calculate (md : Md) (hnew : md.exists_in_system = false) :
    get_size (calculate_region_and_topology md) =
      (level_formula md.md_level (real_chunk_size md.md_level md.chunk_size)
        (member_loop (real_chunk_size md.md_level md.chunk_size) md.devices)).1 := by
  simp [calculate_region_and_topology, hnew, get_size, set_size, set_topology,
    computed_size_and_io]

/-- C1: for each of the levels RAID0, RAID1, RAID4, RAID5, RAID6 and RAID10, an
Md that does not exist in the system and has fewer non-spare members than
`minimal_number_of_devices` of its level gets size 0 from
`calculate_region_and_topology` (a total function: it cannot fail), where the
minimum is 2 for RAID0, RAID1 and RAID10, 3 for RAID4 and RAID5 and 4 for RAID6. -/
theorem size_zero_below_minimal_number (md : Md)
    (hlevel : md.md_level = MdLevel.RAID0 ∨ md.md_level = MdLevel.RAID1 ∨
      md.md_level = MdLevel.RAID4 ∨ md.md_level = MdLevel.RAID5 ∨
      md.md_level = MdLevel.RAID6 ∨ md.md_level = MdLevel.RAID10)
    (hnew : md.exists_in_system = false)
    (hfew : number_of_devices md < minimal_number_of_devices md.md_level) :
    get_size (calculate_region_and_topology md) = 0 ∧
      minimal_number_of_devices MdLevel.RAID0 = 2 ∧
      minimal_number_of_devices MdLevel.RAID1 = 2 ∧
      minimal_number_of_devices MdLevel.RAID10 = 2 ∧
      minimal_number_of_devices MdLevel.RAID4 = 3 ∧
      minimal_number_of_devices MdLevel.RAID5 = 3 ∧
      minimal_number_of_devices MdLevel.RAID6 = 4 := by
  refine ⟨?_, rfl, rfl, rfl, rfl, rfl, rfl⟩
  have hn := member_loop_number (real_chunk_size md.md_level md.chunk_size) md
  rw [get_size_calculate md hnew]
  rcases hlevel with h | h | h | h | h | h <;>
    rw [h] at hfew hn ⊢ <;>
    simp only [minimal_number_of_devices] at hfew <;>
    simp only [level_formula] <;>
    split_ifs with hc <;>
    first | rfl | (exfalso; omega)

theorem size_zero_below_minimal_number_witness :
    get_size (calculate_region_and_topology
        (planned_md MdLevel.RAID6 0
          [active_member 1 ten_GiB, active_member 2 ten_GiB, active_member 3 ten_GiB,
            spare_member 4 ten_GiB])) = 0 ∧
      minimal_number_of_devices MdLevel.RAID0 = 2 ∧
      minimal_number_of_devices MdLevel.RAID1 = 2 ∧
      minimal_number_of_devices MdLevel.RAID10 = 2 ∧
      minimal_number_of_devices MdLevel.RAID4 = 3 ∧
      minimal_number_of_devices MdLevel.RAID5 = 3 ∧
      minimal_number_of_devices MdLevel.RAID6 = 4 :=
  size_zero_below_minimal_number _ (by decide) (by decide) (by decide)

/-! ## Lemmas on the machine arithmetic -/

theorem sub64_of_le (a b : Nat) (hb : b ≤ a) (ha : a < ULL) : sub64 a b = a - b := by
  unfold sub64 ULL at *
  have h1 : b % 18446744073709551616 = b := Nat.mod_eq_of_lt (by omega)
  rw [h1]
  omega

theorem sub64_lt (a b : Nat) : sub64 a b < ULL := by
  unfold sub64
  exact Nat.mod_lt _ (by decide)

theorem toLong_of_lt (x : Nat) (h : x < 9223372036854775808) : toLong x = (x : Int) := by
  unfold toLong ULL
  have h1 : x % 18446744073709551616 = x := Nat.mod_eq_of_lt (by omega)
  rw [h1, if_pos h]

theorem toULL_natCast (x : Nat) (h : x < ULL) : toULL (x : Int) = x := by
  unfold toULL
  unfold ULL at h
  omega

theorem toULL_toLong (x : Nat) (h : x < ULL) : toULL (toLong x) = x := by
  unfold toULL toLong
  unfold ULL at *
  have h1 : x % 18446744073709551616 = x := Nat.mod_eq_of_lt h
  rw [h1]
  split_ifs <;> omega

theorem toLong_eq_zero_iff (x : Nat) (h : x < ULL) : toLong x = 0 ↔ x = 0 := by
  unfold toLong
  unfold ULL at *
  have h1 : x % 18446744073709551616 = x := Nat.mod_eq_of_lt h
  rw [h1]
  split_ifs <;> omega

/-- The chunk size that the member loop divides by is the effective chunk size of
the spec's wording. -/
theorem toULL_real_chunk_size (md_level : MdLevel) (chunk_size : Nat) (h : chunk_size < ULL) :
    toULL (real_chunk_size md_level chunk_size) = effective_chunk_size md_level chunk_size := by
  unfold real_chunk_size effective_chunk_size
  by_cases hl : md_level = MdLevel.RAID1
  · simp only [hl, if_true]
    exact toULL_toLong _ (by decide)
  · simp only [hl, if_false]
    by_cases hc : chunk_size = 0
    · subst hc
      have h0 : toLong 0 = 0 := by decide
      simp only [h0, if_true]
      exact toULL_toLong _ (by decide)
    · have h0 : ¬ toLong chunk_size = 0 := fun h0 => hc ((toLong_eq_zero_iff _ h).1 h0)
      simp only [h0, hc, if_false]
      exact toULL_toLong _ h

theorem effective_chunk_size_pos (md_level : MdLevel) (chunk_size : Nat) :
    0 < effective_chunk_size md_level chunk_size := by
  unfold effective_chunk_size
  split_ifs <;> first | decide | omega

/-- The truncation step of the member loop rounds down to a multiple of the
chunk size whenever the remainder fits into a `long`. -/
theorem truncation_eq (x c : Nat) (hx : x < ULL) (hr : x % c < 9223372036854775808) :
    (if toLong (x % c) > 0 then sub64 x (toULL (toLong (x % c))) else x) =
      floor_to_chunk x c := by
  have hle : x % c ≤ x := Nat.mod_le x c
  have hdm : c * (x / c) + x % c = x := Nat.div_add_mod x c
  rw [toLong_of_lt _ hr, toULL_natCast _ (by unfold ULL at *; omega)]
  unfold floor_to_chunk
  rw [Nat.mul_comm] at hdm
  split_ifs with hpos
  · rw [sub64_of_le _ _ hle hx]
    omega
  · have : x % c = 0 := by omega
    omega

/-- Masking with `~(0x1000ULL - 1)` rounds down to a multiple of 4 KiB. -/
theorem land_not64_mask (x : Nat) (h : x < ULL) :
    x &&& not64 (0x1000 - 1) = x - x % 0x1000 := by
  have hx : x - x % 0x1000 = (x >>> 12) <<< 12 := by
    rw [Nat.shiftLeft_eq, Nat.shiftRight_eq_div_pow]
    omega
  have hm : not64 (0x1000 - 1) = (2 ^ 52 - 1) <<< 12 := by decide
  rw [hx, hm]
  apply Nat.eq_of_testBit_eq
  intro i
  rw [Nat.testBit_and, Nat.testBit_shiftLeft, Nat.testBit_shiftLeft,
    Nat.testBit_two_pow_sub_one, Nat.testBit_shiftRight]
  by_cases hi : 12 ≤ i
  · have e : 12 + (i - 12) = i := by omega
    simp only [ge_iff_le, hi, decide_True, Bool.true_and, e]
    by_cases hj : i - 12 < 52
    · simp [hj]
    · simp only [hj, decide_False, Bool.and_false]
      symm
      apply Nat.testBit_eq_false_of_lt
      calc x < 2 ^ 64 := h
        _ ≤ 2 ^ i := Nat.pow_le_pow_right (by decide) (by omega)
  · simp [hi]

/-- The metadata deduction and the safety trim of the member loop give `trim S`
for a member of at least 8 KiB. -/
theorem deduction_and_trim_eq (S : Nat) (hS : 8192 ≤ S) (hlt : S < ULL) :
    sub64 (sub64 (S &&& not64 (0x1000 - 1)) 0x2000)
        (min (128 * MiB) (sub64 (S &&& not64 (0x1000 - 1)) 0x2000 / 64)) = trim S := by
  rw [land_not64_mask S hlt]
  have h1 : sub64 (S - S % 0x1000) 0x2000 = S - S % 4096 - 8192 := by
    rw [sub64_of_le _ _ (by omega) (by unfold ULL at *; omega)]
  rw [h1]
  have h2 : min (128 * MiB) ((S - S % 4096 - 8192) / 64) ≤ S - S % 4096 - 8192 := by
    have := Nat.div_le_self (S - S % 4096 - 8192) 64
    have := Nat.min_le_right (128 * MiB) ((S - S % 4096 - 8192) / 64)
    omega
  rw [sub64_of_le _ _ h2 (by unfold ULL at *; omega)]
  rfl

theorem trim_le (S : Nat) : trim S ≤ S := by
  unfold trim
  simp only
  omega

/-- The usable size of a member of at least 8 KiB, in the spec's wording, when
the remainder of the truncation fits into a `long`. -/
theorem usable_size_eq (rcs : Int) (S : Nat) (hS : 8192 ≤ S) (hlt : S < ULL)
    (hr : trim S % toULL rcs < 9223372036854775808) :
    usable_size rcs S = floor_to_chunk (trim S) (toULL rcs) := by
  unfold usable_size
  simp only
  rw [deduction_and_trim_eq S hS hlt]
  exact truncation_eq _ _ (lt_of_le_of_lt (trim_le S) hlt) hr

theorem usable_size_lt (rcs : Int) (S : Nat) : usable_size rcs S < ULL := by
  unfold usable_size
  simp only
  split_ifs
  · exact sub64_lt _ _
  · exact sub64_lt _ _

/-! ## The accumulators of the member loop -/

theorem foldl_loop_smallest_le_acc (rcs : Int) (ds : List MdDevice) (acc : Accu) :
    (ds.foldl (loop_step rcs) acc).smallest ≤ acc.smallest := by
  induction ds generalizing acc with
  | nil => simp
  | cons d ds ih =>
    rw [List.foldl_cons]
    exact le_trans (ih _) (Nat.min_le_left _ _)

theorem foldl_loop_smallest_le_mem (rcs : Int) (ds : List MdDevice) (acc : Accu) :
    ∀ d ∈ ds, (ds.foldl (loop_step rcs) acc).smallest ≤ usable_size rcs d.size := by
  induction ds generalizing acc with
  | nil => simp
  | cons e ds ih =>
    intro d hd
    rw [List.foldl_cons]
    rcases List.mem_cons.1 hd with h | h
    · subst h
      exact le_trans (foldl_loop_smallest_le_acc rcs ds _) (Nat.min_le_right _ _)
    · exact ih _ d h

theorem foldl_loop_smallest_mem (rcs : Int) (ds : List MdDevice) (acc : Accu) :
    (ds.foldl (loop_step rcs) acc).smallest = acc.smallest ∨
      ∃ d ∈ ds, (ds.foldl (loop_step rcs) acc).smallest = usable_size rcs d.size := by
  induction ds generalizing acc with
  | nil => simp
  | cons e ds ih =>
    rw [List.foldl_cons]
    rcases ih (loop_step rcs acc e) with h | ⟨d, hd, h⟩
    · rcases Nat.le_total acc.smallest (usable_size rcs e.size) with hle | hle
      · left
        rw [h]
        exact Nat.min_eq_left hle
      · right
        refine ⟨e, List.mem_cons_self _ _, ?_⟩
        rw [h]
        exact Nat.min_eq_right hle
    · exact Or.inr ⟨d, List.mem_cons_of_mem _ hd, h⟩

/-- The accumulator `smallest` after the loop is the smallest usable size among
all members, spare ones included, as soon as there is a member. -/
theorem member_loop_smallest (md : Md) (hne : md.devices ≠ []) :
    is_smallest_usable md
      (member_loop (real_chunk_size md.md_level md.chunk_size) md.devices).smallest := by
  have hle := foldl_loop_smallest_le_mem (real_chunk_size md.md_level md.chunk_size)
    md.devices { number := 0, sum := 0, smallest := ULLONG_MAX }
  refine ⟨?_, hle⟩
  rcases foldl_loop_smallest_mem (real_chunk_size md.md_level md.chunk_size)
    md.devices { number := 0, sum := 0, smallest := ULLONG_MAX } with h | h
  · obtain ⟨d, hd⟩ := List.exists_mem_of_ne_nil _ hne
    refine ⟨d, hd, ?_⟩
    have h1 := hle d hd
    have h2 := usable_size_lt (real_chunk_size md.md_level md.chunk_size) d.size
    unfold member_loop member_usable_size
    rw [h] at h1 ⊢
    unfold ULLONG_MAX at *
    unfold ULL at h2
    simp only at h1 ⊢
    omega
  · exact h

theorem devices_ne_nil_of_number (md : Md) (h : 0 < number_of_devices md) :
    md.devices ≠ [] := by
  intro hnil
  simp [number_of_devices, hnil] at h

theorem foldl_loop_sum_const (rcs : Int) (x : Nat) (ds : List MdDevice) (acc : Accu)
    (hacc : acc.sum < ULL)
    (hds : ∀ d ∈ ds, d.spare = false ∧ usable_size rcs d.size = x) :
    (ds.foldl (loop_step rcs) acc).sum = (acc.sum + ds.length * x) % ULL := by
  induction ds generalizing acc with
  | nil => simp [Nat.mod_eq_of_lt hacc]
  | cons d ds ih =>
    have hd := hds d (List.mem_cons_self _ _)
    have hstep : (loop_step rcs acc d).sum = (acc.sum + x) % ULL := by
      simp [loop_step, hd.1, hd.2, add64]
    rw [List.foldl_cons, ih _ (by rw [hstep]; exact Nat.mod_lt _ (by decide))
      (fun e he => hds e (List.mem_cons_of_mem _ he)), hstep, List.length_cons,
      Nat.succ_mul]
    unfold ULL
    omega

theorem countP_not_spare_eq_length (ds : List MdDevice) (h : ∀ d ∈ ds, d.spare = false) :
    ds.countP (fun d => !d.spare) = ds.length := by
  rw [List.countP_eq_length]
  intro d hd
  simp [h d hd]

theorem floor_to_chunk_le (x c : Nat) : floor_to_chunk x c ≤ x :=
  Nat.div_mul_le_self x c

/-! ## RAID0 and RAID1 sizes -/

/-- C2 (amended): for an Md that does not exist in the system, with level RAID0,
chunk size `C > 0` and `N ≥ 2` members, none of them spare, all of the same
size `S`, where `S` is at least 8 KiB and the total raw size `N * S` fits in
64 bits, `calculate_region_and_topology` sets the size to
`N * floor_to_chunk (trim S) C`. -/
theorem raid0_size_equal_members (md : Md) (S : Nat)
    (hnew : md.exists_in_system = false) (hlevel : md.md_level = MdLevel.RAID0)
    (hC : 0 < md.chunk_size) (hCu : md.chunk_size < ULL)
    (hN : 2 ≤ md.devices.length)
    (hmem : ∀ d ∈ md.devices, d.size = S ∧ d.spare = false)
    (hS : 8192 ≤ S) (hfit : md.devices.length * S < ULL) :
    get_size (calculate_region_and_topology md) =
      md.devices.length * floor_to_chunk (trim S) md.chunk_size := by
  have h2S : 2 * S ≤ md.devices.length * S := Nat.mul_le_mul_right S hN
  have hSlt : S < 9223372036854775808 := by unfold ULL at hfit; omega
  have hc : toULL (real_chunk_size MdLevel.RAID0 md.chunk_size) = md.chunk_size := by
    rw [toULL_real_chunk_size _ _ hCu]
    unfold effective_chunk_size
    rw [if_neg (by decide), if_neg (by omega)]
  have hu : ∀ d ∈ md.devices, d.spare = false ∧
      usable_size (real_chunk_size MdLevel.RAID0 md.chunk_size) d.size =
        floor_to_chunk (trim S) md.chunk_size := by
    intro d hd
    refine ⟨(hmem d hd).2, ?_⟩
    rw [(hmem d hd).1, usable_size_eq _ S hS (by unfold ULL; omega), hc]
    rw [hc]
    exact lt_of_le_of_lt (Nat.mod_le _ _) (lt_of_le_of_lt (trim_le S) hSlt)
  have hnum := member_loop_number (real_chunk_size md.md_level md.chunk_size) md
  rw [number_of_devices, countP_not_spare_eq_length _ (fun d hd => (hmem d hd).2)] at hnum
  have hsum := foldl_loop_sum_const (real_chunk_size MdLevel.RAID0 md.chunk_size) _
    md.devices { number := 0, sum := 0, smallest := ULLONG_MAX } (by decide) hu
  rw [get_size_calculate md hnew]
  rw [hlevel] at hnum ⊢
  simp only [level_formula, hnum, ge_iff_le, hN, if_true]
  unfold member_loop
  rw [hsum]
  simp only [Nat.zero_add]
  apply Nat.mod_eq_of_lt
  have h1 : floor_to_chunk (trim S) md.chunk_size ≤ S :=
    le_trans (floor_to_chunk_le _ _) (trim_le S)
  exact lt_of_le_of_lt (Nat.mul_le_mul_left _ h1) hfit

theorem raid0_size_equal_members_witness :
    get_size (calculate_region_and_topology
        (planned_md MdLevel.RAID0 524288 [active_member 1 ten_GiB, active_member 2 ten_GiB])) =
      2 * floor_to_chunk (trim ten_GiB) 524288 :=
  raid0_size_equal_members
    (planned_md MdLevel.RAID0 524288 [active_member 1 ten_GiB, active_member 2 ten_GiB])
    ten_GiB rfl rfl (by decide) (by decide) (by decide) (by decide) (by decide) (by decide)

/-- C2 as stated fails on members below 8 KiB and on members whose sizes sum
up beyond 64 bits: two RAID0 members of 4 KiB with a chunk size of 512 KiB
give the size 18446744073440067584 where `N * floor_to_chunk (trim S) C` is 0,
and two members of `2 ^ 63 + 2 ^ 28` bytes give 267386880 where the formula
is 18446744073976938496. -/
theorem raid0_size_equal_members_counterexample :
    (get_size (calculate_region_and_topology
        (planned_md MdLevel.RAID0 524288 [active_member 1 4096, active_member 2 4096])) =
        18446744073440067584 ∧
      2 * floor_to_chunk (trim 4096) 524288 = 0) ∧
    (get_size (calculate_region_and_topology
        (planned_md MdLevel.RAID0 524288
          [active_member 1 9223372037123211264, active_member 2 9223372037123211264])) =
        267386880 ∧
      2 * floor_to_chunk (trim 9223372037123211264) 524288 = 18446744073976938496) := by
  decide

/-! ## The smallest trimmed member size -/

/-- The chunk size that the member loop divides by is the effective chunk size
of the spec's wording, for RAID1 whatever the configured chunk size is. -/
theorem toULL_real_chunk_size_of_level (md_level : MdLevel) (chunk_size : Nat)
    (h : md_level = MdLevel.RAID1 ∨ chunk_size < ULL) :
    toULL (real_chunk_size md_level chunk_size) = effective_chunk_size md_level chunk_size := by
  rcases h with h | h
  · subst h
    simp only [real_chunk_size, effective_chunk_size, if_true]
    decide
  · exact toULL_real_chunk_size md_level chunk_size h

/-- For a member of at least 8 KiB and an effective chunk size below `2 ^ 63`
the usable size that the member loop computes is the spec's trimmed size. -/
theorem member_usable_size_eq_trimmed (md : Md) (d : MdDevice)
    (hchunk : md.md_level = MdLevel.RAID1 ∨ md.chunk_size < ULL)
    (hc : effective_chunk_size md.md_level md.chunk_size < 9223372036854775808)
    (hd : 8192 ≤ d.size ∧ d.size < ULL) :
    member_usable_size md d = trimmed_member_size md d := by
  have hpos := effective_chunk_size_pos md.md_level md.chunk_size
  have hcs := toULL_real_chunk_size_of_level md.md_level md.chunk_size hchunk
  unfold member_usable_size trimmed_member_size
  rw [usable_size_eq _ d.size hd.1 hd.2, hcs]
  rw [hcs]
  exact lt_trans (Nat.mod_lt _ hpos) hc

/-- With every member of at least 8 KiB the smallest usable size of the code
is the smallest trimmed member size of the spec. -/
theorem is_smallest_trimmed_iff (md : Md) (s : Nat)
    (hchunk : md.md_level = MdLevel.RAID1 ∨ md.chunk_size < ULL)
    (hc : effective_chunk_size md.md_level md.chunk_size < 9223372036854775808)
    (hsize : ∀ d ∈ md.devices, 8192 ≤ d.size ∧ d.size < ULL) :
    is_smallest_trimmed md s ↔ is_smallest_usable md s := by
  have heq : ∀ d ∈ md.devices, member_usable_size md d = trimmed_member_size md d :=
    fun d hd => member_usable_size_eq_trimmed md d hchunk hc (hsize d hd)
  unfold is_smallest_trimmed is_smallest_usable
  constructor
  · rintro ⟨⟨d, hd, hsd⟩, hle⟩
    exact ⟨⟨d, hd, by rw [heq d hd]; exact hsd⟩, fun e he => by rw [heq e he]; exact hle e he⟩
  · rintro ⟨⟨d, hd, hsd⟩, hle⟩
    exact ⟨⟨d, hd, by rw [← heq d hd]; exact hsd⟩, fun e he => by rw [← heq e he]; exact hle e he⟩

theorem is_smallest_trimmed_unique (md : Md) (s t : Nat)
    (hs : is_smallest_trimmed md s) (ht : is_smallest_trimmed md t) : s = t := by
  obtain ⟨⟨d, hd, hsd⟩, hsle⟩ := hs
  obtain ⟨⟨e, he, hte⟩, htle⟩ := ht
  have h1 := hsle e he
  have h2 := htle d hd
  omega

/-- The size of a RAID1 with at least two members that are not spare is the
accumulator `smallest` of the member loop. -/
theorem raid1_size_is_smallest_usable (md : Md)
    (hnew : md.exists_in_system = false) (hlevel : md.md_level = MdLevel.RAID1)
    (hN : 2 ≤ number_of_devices md) :
    is_smallest_usable md (get_size (calculate_region_and_topology md)) := by
  have hnum := member_loop_number (real_chunk_size md.md_level md.chunk_size) md
  have hsm := member_loop_smallest md (devices_ne_nil_of_number md (by omega))
  rw [get_size_calculate md hnew]
  have hge : (member_loop (real_chunk_size md.md_level md.chunk_size) md.devices).number ≥ 2 := by
    rw [hnum]; exact hN
  have hform : (level_formula md.md_level (real_chunk_size md.md_level md.chunk_size)
      (member_loop (real_chunk_size md.md_level md.chunk_size) md.devices)).1 =
      (member_loop (real_chunk_size md.md_level md.chunk_size) md.devices).smallest := by
    rw [hlevel] at hge ⊢
    simp only [level_formula, hge, if_true]
  rw [hform]
  exact hsm

/-- C3 (amended): for an Md that does not exist in the system, with level RAID1,
at least two members that are not spare and every member of at least 8 KiB,
`calculate_region_and_topology` sets the size to the smallest trimmed member
size, the minimum being taken over all members, spare ones included, whatever
their number; the trimmed size of a member of raw size `S` is `trim S` (the
metadata deduction and the safety trim) rounded down to a multiple of
64 KiB. -/
theorem raid1_size_smallest_member (md : Md)
    (hnew : md.exists_in_system = false) (hlevel : md.md_level = MdLevel.RAID1)
    (hN : 2 ≤ number_of_devices md)
    (hsize : ∀ d ∈ md.devices, 8192 ≤ d.size ∧ d.size < ULL) :
    is_smallest_trimmed md (get_size (calculate_region_and_topology md)) ∧
      (∀ s, is_smallest_trimmed md s → get_size (calculate_region_and_topology md) = s) ∧
      ∀ d, trimmed_member_size md d = floor_to_chunk (trim d.size) 65536 := by
  have hc : effective_chunk_size md.md_level md.chunk_size < 9223372036854775808 := by
    rw [hlevel]
    simp only [effective_chunk_size, if_true]
    decide
  have hs : is_smallest_trimmed md (get_size (calculate_region_and_topology md)) :=
    (is_smallest_trimmed_iff md _ (Or.inl hlevel) hc hsize).2
      (raid1_size_is_smallest_usable md hnew hlevel hN)
  refine ⟨hs, fun s h => is_smallest_trimmed_unique md _ _ hs h, ?_⟩
  intro d
  unfold trimmed_member_size
  rw [hlevel]
  rfl

theorem raid1_size_smallest_member_witness :
    is_smallest_trimmed
        (planned_md MdLevel.RAID1 0
          [active_member 1 ten_GiB, active_member 2 ten_GiB, spare_member 3 1073741824])
        (get_size (calculate_region_and_topology
          (planned_md MdLevel.RAID1 0
            [active_member 1 ten_GiB, active_member 2 ten_GiB, spare_member 3 1073741824]))) ∧
      get_size (calculate_region_and_topology
          (planned_md MdLevel.RAID1 0
            [active_member 1 ten_GiB, active_member 2 ten_GiB, spare_member 3 1073741824])) =
        1056899072 ∧
      floor_to_chunk (trim 1073741824) 65536 = 1056899072 :=
  ⟨(raid1_size_smallest_member
      (planned_md MdLevel.RAID1 0
        [active_member 1 ten_GiB, active_member 2 ten_GiB, spare_member 3 1073741824])
      rfl rfl (by decide) (by decide)).1, by decide, by decide⟩

/-- C3 as stated fails whichever way its members are counted.  Counting every
member: a RAID1 of one active and one spare member of 10 GiB has two members
and gets size 0, while its smallest trimmed member size is 10603134976.
Counting the members that are not spare: with two active members of 10 GiB
and a spare of 1 GiB the size is 1056899072, the trimmed size of the spare,
below the trimmed size 10603134976 of both active members. -/
theorem raid1_size_smallest_member_counterexample :
    ((planned_md MdLevel.RAID1 0 [active_member 1 ten_GiB, spare_member 2 ten_GiB]).devices.length
        = 2 ∧
      get_size (calculate_region_and_topology
        (planned_md MdLevel.RAID1 0 [active_member 1 ten_GiB, spare_member 2 ten_GiB])) = 0 ∧
      is_smallest_trimmed
        (planned_md MdLevel.RAID1 0 [active_member 1 ten_GiB, spare_member 2 ten_GiB])
        10603134976) ∧
    (get_size (calculate_region_and_topology
        (planned_md MdLevel.RAID1 0
          [active_member 1 ten_GiB, active_member 2 ten_GiB, spare_member 3 1073741824])) =
        1056899072 ∧
      floor_to_chunk (trim ten_GiB) 65536 = 10603134976 ∧
      floor_to_chunk (trim 1073741824) 65536 = 1056899072) := by
  unfold is_smallest_trimmed
  decide

/-! ## RAID4, RAID5, RAID6 and RAID10 sizes -/

theorem is_smallest_usable_unique (md : Md) (s t : Nat)
    (hs : is_smallest_usable md s) (ht : is_smallest_usable md t) : s = t := by
  obtain ⟨⟨d, hd, hsd⟩, hsle⟩ := hs
  obtain ⟨⟨e, he, hte⟩, htle⟩ := ht
  have h1 := hsle e he
  have h2 := htle d hd
  omega

theorem member_loop_smallest_eq (md : Md) (s : Nat) (hs : is_smallest_usable md s) :
    (member_loop (real_chunk_size md.md_level md.chunk_size) md.devices).smallest = s := by
  have hne : md.devices ≠ [] := by
    obtain ⟨⟨d, hd, _⟩, _⟩ := hs
    exact List.ne_nil_of_mem hd
  exact is_smallest_usable_unique md _ _ (member_loop_smallest md hne) hs

/-- The sizes of RAID4, RAID5 and RAID6 from the number of members that are not
spare and the accumulator `smallest` of the member loop. -/
theorem raid456_size_of_smallest_usable (md : Md) (s : Nat)
    (hnew : md.exists_in_system = false) (hs : is_smallest_usable md s) :
    ((md.md_level = MdLevel.RAID4 ∨ md.md_level = MdLevel.RAID5) →
        3 ≤ number_of_devices md → (number_of_devices md - 1) * s < ULL →
        get_size (calculate_region_and_topology md) = (number_of_devices md - 1) * s) ∧
      (md.md_level = MdLevel.RAID6 →
        4 ≤ number_of_devices md → (number_of_devices md - 2) * s < ULL →
        get_size (calculate_region_and_topology md) = (number_of_devices md - 2) * s) := by
  have hnum := member_loop_number (real_chunk_size md.md_level md.chunk_size) md
  have hsm := member_loop_smallest_eq md s hs
  rw [get_size_calculate md hnew]
  refine ⟨?_, ?_⟩
  · intro hlevel hn hfit
    rcases hlevel with h | h <;>
    · rw [h] at hsm hnum ⊢
      simp only [level_formula, hnum, ge_iff_le, hn, if_true, hsm, mul64]
      rw [Nat.mul_comm]
      exact Nat.mod_eq_of_lt hfit
  · intro h hn hfit
    rw [h] at hsm hnum ⊢
    simp only [level_formula, hnum, ge_iff_le, hn, if_true, hsm, mul64]
    rw [Nat.mul_comm]
    exact Nat.mod_eq_of_lt hfit

/-- C4 (amended): for an Md that does not exist in the system, with an
effective chunk size below `2 ^ 63`, every member of at least 8 KiB, `n` the
number of its members that are not spare and `s` the smallest trimmed member
size among all its members (spare ones included): if the level is RAID4 or
RAID5, `n ≥ 3` and `(n - 1) * s` fits in 64 bits,
`calculate_region_and_topology` sets the size to `(n - 1) * s`; if the level
is RAID6, `n ≥ 4` and `(n - 2) * s` fits in 64 bits, it sets the size to
`(n - 2) * s`. -/
theorem raid456_size (md : Md) (s : Nat)
    (hnew : md.exists_in_system = false) (hCu : md.chunk_size < ULL)
    (hc : effective_chunk_size md.md_level md.chunk_size < 9223372036854775808)
    (hsize : ∀ d ∈ md.devices, 8192 ≤ d.size ∧ d.size < ULL)
    (hs : is_smallest_trimmed md s) :
    ((md.md_level = MdLevel.RAID4 ∨ md.md_level = MdLevel.RAID5) →
        3 ≤ number_of_devices md → (number_of_devices md - 1) * s < ULL →
        get_size (calculate_region_and_topology md) = (number_of_devices md - 1) * s) ∧
      (md.md_level = MdLevel.RAID6 →
        4 ≤ number_of_devices md → (number_of_devices md - 2) * s < ULL →
        get_size (calculate_region_and_topology md) = (number_of_devices md - 2) * s) :=
  raid456_size_of_smallest_usable md s hnew
    ((is_smallest_trimmed_iff md s (Or.inr hCu) hc hsize).1 hs)

theorem raid456_size_witness :
    is_smallest_trimmed
        (planned_md MdLevel.RAID5 0
          [active_member 1 ten_GiB, active_member 2 ten_GiB, active_member 3 ten_GiB,
            spare_member 4 ten_GiB]) 10602676224 ∧
      floor_to_chunk (trim ten_GiB) 524288 = 10602676224 ∧
      get_size (calculate_region_and_topology
        (planned_md MdLevel.RAID5 0
          [active_member 1 ten_GiB, active_member 2 ten_GiB, active_member 3 ten_GiB,
            spare_member 4 ten_GiB])) = (3 - 1) * 10602676224 :=
  ⟨by unfold is_smallest_trimmed; decide, by decide,
    (raid456_size
      (planned_md MdLevel.RAID5 0
        [active_member 1 ten_GiB, active_member 2 ten_GiB, active_member 3 ten_GiB,
          spare_member 4 ten_GiB])
      10602676224 rfl (by decide) (by decide) (by decide)
      (by unfold is_smallest_trimmed; decide)).1
      (Or.inr rfl) (by decide) (by decide)⟩

/-- C4 as stated fails when `n` counts every member: a RAID5 of three active
members and one spare member of 10 GiB each (four members, smallest trimmed
member size 10602676224) gets the size 21205352448, which is
`(3 - 1) * 10602676224` and not `(4 - 1) * 10602676224`.  It also fails when
the product does not fit in 64 bits: three active RAID5 members of
9223372037123211264 bytes have the smallest trimmed member size
9223372036988469248, twice that is 18446744073976938496, and the size becomes
267386880. -/
theorem raid456_size_counterexample :
    ((planned_md MdLevel.RAID5 0
          [active_member 1 ten_GiB, active_member 2 ten_GiB, active_member 3 ten_GiB,
            spare_member 4 ten_GiB]).devices.length = 4 ∧
      is_smallest_trimmed
        (planned_md MdLevel.RAID5 0
          [active_member 1 ten_GiB, active_member 2 ten_GiB, active_member 3 ten_GiB,
            spare_member 4 ten_GiB]) 10602676224 ∧
      get_size (calculate_region_and_topology
        (planned_md MdLevel.RAID5 0
          [active_member 1 ten_GiB, active_member 2 ten_GiB, active_member 3 ten_GiB,
            spare_member 4 ten_GiB])) = 21205352448 ∧
      (4 - 1) * 10602676224 = 31808028672) ∧
    (is_smallest_trimmed
        (planned_md MdLevel.RAID5 0
          [active_member 1 9223372037123211264, active_member 2 9223372037123211264,
            active_member 3 9223372037123211264])
        9223372036988469248 ∧
      get_size (calculate_region_and_topology
        (planned_md MdLevel.RAID5 0
          [active_member 1 9223372037123211264, active_member 2 9223372037123211264,
            active_member 3 9223372037123211264])) = 267386880 ∧
      (3 - 1) * 9223372036988469248 = 18446744073976938496) := by
  unfold is_smallest_trimmed
  decide

/-- The size of a RAID10 from the number of members that are not spare and the
accumulator `smallest` of the member loop. -/
theorem raid10_size_of_smallest_usable (md : Md) (s : Nat)
    (hnew : md.exists_in_system = false) (hlevel : md.md_level = MdLevel.RAID10)
    (hCu : md.chunk_size < ULL) (hn : 2 ≤ number_of_devices md)
    (hs : is_smallest_usable md s) (hfit : number_of_devices md * s < ULL) :
    get_size (calculate_region_and_topology md) =
        (s / effective_chunk_size MdLevel.RAID10 md.chunk_size * number_of_devices md / 2) *
          effective_chunk_size MdLevel.RAID10 md.chunk_size ∧
      effective_chunk_size MdLevel.RAID10 md.chunk_size ∣
        get_size (calculate_region_and_topology md) ∧
      2 * get_size (calculate_region_and_topology md) ≤ number_of_devices md * s := by
  have hnum := member_loop_number (real_chunk_size md.md_level md.chunk_size) md
  have hsm := member_loop_smallest_eq md s hs
  have hc := toULL_real_chunk_size MdLevel.RAID10 md.chunk_size hCu
  generalize effective_chunk_size MdLevel.RAID10 md.chunk_size = c at hc ⊢
  generalize number_of_devices md = n at hnum hn hfit ⊢
  -- the products of the formula stay below 2 ^ 64
  have h1 : s / c * c ≤ s := Nat.div_mul_le_self s c
  have h2 : s / c * n * c ≤ n * s := by
    calc s / c * n * c = n * (s / c * c) := by ring
      _ ≤ n * s := Nat.mul_le_mul_left n h1
  have h3 : s / c * n / 2 * 2 ≤ s / c * n := Nat.div_mul_le_self _ 2
  have h4 : 2 * (s / c * n / 2 * c) ≤ n * s := by
    calc 2 * (s / c * n / 2 * c) = (s / c * n / 2 * 2) * c := by ring
      _ ≤ s / c * n * c := Nat.mul_le_mul_right c h3
      _ ≤ n * s := h2
  have h5 : s / c * n ≤ n * s := by
    calc s / c * n ≤ s * n := Nat.mul_le_mul_right n (Nat.div_le_self s c)
      _ = n * s := Nat.mul_comm s n
  have hsize : get_size (calculate_region_and_topology md) = s / c * n / 2 * c := by
    rw [get_size_calculate md hnew]
    rw [hlevel] at hsm hnum ⊢
    simp only [level_formula, hnum, ge_iff_le, hn, if_true, hsm, hc, mul64]
    rw [Nat.mod_eq_of_lt (lt_of_le_of_lt h5 hfit)]
    apply Nat.mod_eq_of_lt
    omega
  rw [hsize]
  exact ⟨rfl, Dvd.intro_left _ rfl, h4⟩

/-- C5 (amended): for an Md that does not exist in the system, with level
RAID10, effective chunk size `c` below `2 ^ 63`, every member of at least
8 KiB, `n ≥ 2` members that are not spare and `s` the smallest trimmed member
size among all members, where `n * s` fits in 64 bits,
`calculate_region_and_topology` sets the size to `(s / c * n / 2) * c`; this
size is a multiple of `c` and at most half of `n * s`. -/
theorem raid10_size (md : Md) (s : Nat)
    (hnew : md.exists_in_system = false) (hlevel : md.md_level = MdLevel.RAID10)
    (hCu : md.chunk_size < ULL)
    (hc : effective_chunk_size MdLevel.RAID10 md.chunk_size < 9223372036854775808)
    (hsize : ∀ d ∈ md.devices, 8192 ≤ d.size ∧ d.size < ULL)
    (hn : 2 ≤ number_of_devices md)
    (hs : is_smallest_trimmed md s) (hfit : number_of_devices md * s < ULL) :
    get_size (calculate_region_and_topology md) =
        (s / effective_chunk_size MdLevel.RAID10 md.chunk_size * number_of_devices md / 2) *
          effective_chunk_size MdLevel.RAID10 md.chunk_size ∧
      effective_chunk_size MdLevel.RAID10 md.chunk_size ∣
        get_size (calculate_region_and_topology md) ∧
      2 * get_size (calculate_region_and_topology md) ≤ number_of_devices md * s :=
  raid10_size_of_smallest_usable md s hnew hlevel hCu hn
    ((is_smallest_trimmed_iff md s (Or.inr hCu) (by rw [hlevel]; exact hc) hsize).1 hs) hfit

theorem raid10_size_witness :
    is_smallest_trimmed
        (planned_md MdLevel.RAID10 0
          [active_member 1 ten_GiB, active_member 2 ten_GiB, active_member 3 ten_GiB])
        10602676224 ∧
      floor_to_chunk (trim ten_GiB) 524288 = 10602676224 ∧
      get_size (calculate_region_and_topology
        (planned_md MdLevel.RAID10 0
          [active_member 1 ten_GiB, active_member 2 ten_GiB, active_member 3 ten_GiB])) =
        (10602676224 / effective_chunk_size MdLevel.RAID10 0 * 3 / 2) *
          effective_chunk_size MdLevel.RAID10 0 ∧
      (10602676224 / effective_chunk_size MdLevel.RAID10 0 * 3 / 2) *
          effective_chunk_size MdLevel.RAID10 0 = 15903752192 :=
  ⟨by unfold is_smallest_trimmed; decide, by decide,
    (raid10_size
      (planned_md MdLevel.RAID10 0
        [active_member 1 ten_GiB, active_member 2 ten_GiB, active_member 3 ten_GiB])
      10602676224 rfl rfl (by decide) (by decide) (by decide) (by decide)
      (by unfold is_smallest_trimmed; decide) (by decide)).1, by decide⟩

/-- C5 as stated fails when the products of the formula do not fit in 64 bits:
a RAID10 with the default chunk size of 512 KiB over four active members of
9223372037123211264 bytes has the smallest trimmed member size
9223372036988469248, the formula gives 18446744073976938496, and the size
becomes 267386880. -/
theorem raid10_size_counterexample :
    number_of_devices
        (planned_md MdLevel.RAID10 0
          [active_member 1 9223372037123211264, active_member 2 9223372037123211264,
            active_member 3 9223372037123211264, active_member 4 9223372037123211264]) = 4 ∧
      is_smallest_trimmed
        (planned_md MdLevel.RAID10 0
          [active_member 1 9223372037123211264, active_member 2 9223372037123211264,
            active_member 3 9223372037123211264, active_member 4 9223372037123211264])
        9223372036988469248 ∧
      get_size (calculate_region_and_topology
        (planned_md MdLevel.RAID10 0
          [active_member 1 9223372037123211264, active_member 2 9223372037123211264,
            active_member 3 9223372037123211264, active_member 4 9223372037123211264])) =
        267386880 ∧
      (9223372036988469248 / effective_chunk_size MdLevel.RAID10 0 * 4 / 2) *
        effective_chunk_size MdLevel.RAID10 0 = 18446744073976938496 := by
  unfold is_smallest_trimmed
  decide

/-! ## The usable size of a member -/

/-- C6 (amended): for a member of raw size `S ≥ 8 KiB` and an effective chunk
size `c` below `2 ^ 63` (the configured chunk size, or 512 KiB when it is 0,
or 64 KiB for RAID1), the usable size that the member loop of
`calculate_region_and_topology` computes is `floor_to_chunk (t - min (128 MiB) (t / 64)) c`
with `t = (S rounded down to a multiple of 4 KiB) - 8 KiB`. -/
theorem usable_size_of_member (md_level : MdLevel) (chunk_size S : Nat)
    (hS : 8192 ≤ S) (hSlt : S < ULL) (hCu : chunk_size < ULL)
    (hc : effective_chunk_size md_level chunk_size < 9223372036854775808) :
    usable_size (real_chunk_size md_level chunk_size) S =
      floor_to_chunk
        ((S / 4096 * 4096 - 8192) - min (128 * MiB) ((S / 4096 * 4096 - 8192) / 64))
        (effective_chunk_size md_level chunk_size) := by
  have hpos := effective_chunk_size_pos md_level chunk_size
  have hfloor : S / 4096 * 4096 = S - S % 4096 := by omega
  rw [usable_size_eq _ S hS hSlt, toULL_real_chunk_size _ _ hCu, hfloor]
  · rfl
  · rw [toULL_real_chunk_size _ _ hCu]
    exact lt_trans (Nat.mod_lt _ hpos) hc

theorem usable_size_of_member_witness :
    usable_size (real_chunk_size MdLevel.RAID5 0) ten_GiB =
      floor_to_chunk
        ((ten_GiB / 4096 * 4096 - 8192) - min (128 * MiB) ((ten_GiB / 4096 * 4096 - 8192) / 64))
        (effective_chunk_size MdLevel.RAID5 0) :=
  usable_size_of_member MdLevel.RAID5 0 ten_GiB (by decide) (by decide) (by decide) (by decide)

/-- C6 as stated fails for a chunk size that does not fit into the `long` the
code keeps it in: with level RAID0, chunk size `2 ^ 64 - 1` and a member of
`2 ^ 64 - 1` bytes the remainder of the truncation is negative as a `long`, the
size is left at 18446744073575321600, and rounding that value down to a
multiple of the chunk size gives 0. -/
theorem usable_size_of_member_counterexample :
    effective_chunk_size MdLevel.RAID0 18446744073709551615 = 18446744073709551615 ∧
      real_chunk_size MdLevel.RAID0 18446744073709551615 = -1 ∧
      usable_size (real_chunk_size MdLevel.RAID0 18446744073709551615) 18446744073709551615 =
        18446744073575321600 ∧
      floor_to_chunk
        ((18446744073709551615 / 4096 * 4096 - 8192) -
          min (128 * MiB) ((18446744073709551615 / 4096 * 4096 - 8192) / 64))
        (effective_chunk_size MdLevel.RAID0 18446744073709551615) = 0 := by
  decide

/-! ## The example scenario -/

/-- C7: a RAID1 Md that does not exist in the system, over two members of
10 GiB that are not spare, gets the size 10603134976 from
`calculate_region_and_topology`, which is less than 10 GiB, whatever its
parity and its configured chunk size are. -/
theorem raid1_two_ten_GiB_members (md : Md) (d1 d2 : MdDevice)
    (hnew : md.exists_in_system = false) (hlevel : md.md_level = MdLevel.RAID1)
    (hdev : md.devices = [d1, d2])
    (h1 : d1.size = ten_GiB ∧ d1.spare = false)
    (h2 : d2.size = ten_GiB ∧ d2.spare = false) :
    get_size (calculate_region_and_topology md) = 10603134976 ∧
      10603134976 < ten_GiB := by
  refine ⟨?_, by decide⟩
  have hrcs : real_chunk_size MdLevel.RAID1 md.chunk_size = toLong (64 * KiB) := by
    simp [real_chunk_size]
  have hu : usable_size (toLong (64 * KiB)) ten_GiB = 10603134976 := by decide
  rw [get_size_calculate md hnew, hlevel, hdev, hrcs]
  simp [level_formula, member_loop, loop_step, h1.1, h1.2, h2.1, h2.2, hu, ULLONG_MAX]

theorem raid1_two_ten_GiB_members_witness :
    get_size (calculate_region_and_topology
        (planned_md MdLevel.RAID1 4096 [active_member 1 ten_GiB, active_member 2 ten_GiB])) =
        10603134976 ∧
      10603134976 < ten_GiB :=
  raid1_two_ten_GiB_members _ _ _ rfl rfl rfl ⟨rfl, rfl⟩ ⟨rfl, rfl⟩

/-! ## Existing arrays and the sizing invariant -/

theorem calculate_of_exists (md : Md) (hex : md.exists_in_system = true) :
    calculate_region_and_topology md = md := by
  simp [calculate_region_and_topology, hex]

/-- C8: for an Md that exists in the system `calculate_region_and_topology`
does nothing, whatever the level, chunk size and members are; so
`set_md_level`, `set_chunk_size`, `add_device`, `remove_device` and
`parent_has_new_region` leave its region (size) and topology as they were. -/
theorem existing_md_keeps_size (md : Md) (hex : md.exists_in_system = true) :
    calculate_region_and_topology md = md ∧
      (∀ md_level, (set_md_level md md_level).region = md.region ∧
        (set_md_level md md_level).topology = md.topology) ∧
      (∀ chunk_size, (set_chunk_size md chunk_size).region = md.region ∧
        (set_chunk_size md chunk_size).topology = md.topology) ∧
      (∀ blk_device md', add_device md blk_device = .ok md' →
        md'.region = md.region ∧ md'.topology = md.topology) ∧
      (∀ blk_device md', remove_device md blk_device = .ok md' →
        md'.region = md.region ∧ md'.topology = md.topology) ∧
      (∀ parent, (parent_has_new_region md parent).region = md.region ∧
        (parent_has_new_region md parent).topology = md.topology) := by
  refine ⟨calculate_of_exists md hex, ?_, ?_, ?_, ?_, ?_⟩
  · intro md_level
    unfold set_md_level
    split_ifs
    · exact ⟨rfl, rfl⟩
    · rw [calculate_of_exists _ (by exact hex)]
      exact ⟨rfl, rfl⟩
  · intro chunk_size
    unfold set_chunk_size
    split_ifs
    · exact ⟨rfl, rfl⟩
    · rw [calculate_of_exists _ (by exact hex)]
      exact ⟨rfl, rfl⟩
  · intro blk_device md' h
    unfold add_device at h
    split_ifs at h
    rw [calculate_of_exists _ (by exact hex)] at h
    cases h
    exact ⟨rfl, rfl⟩
  · intro blk_device md' h
    unfold remove_device at h
    split_ifs at h
    rw [calculate_of_exists _ (by exact hex)] at h
    cases h
    exact ⟨rfl, rfl⟩
  · intro parent
    unfold parent_has_new_region
    rw [calculate_of_exists md hex]
    exact ⟨rfl, rfl⟩

theorem existing_md_keeps_size_witness :
    (set_md_level probed_md MdLevel.RAID0).region = probed_md.region ∧
      (set_md_level probed_md MdLevel.RAID0).topology = probed_md.topology :=
  (existing_md_keeps_size probed_md rfl).2.1 MdLevel.RAID0

theorem calculate_keeps_inputs (md : Md) :
    (calculate_region_and_topology md).md_level = md.md_level ∧
      (calculate_region_and_topology md).chunk_size = md.chunk_size ∧
      (calculate_region_and_topology md).devices = md.devices ∧
      (calculate_region_and_topology md).exists_in_system = md.exists_in_system := by
  unfold calculate_region_and_topology
  split_ifs <;> exact ⟨rfl, rfl, rfl, rfl⟩

/-- After `calculate_region_and_topology` the stored size and topology are up
to date. -/
theorem size_up_to_date_calculate (md : Md) :
    size_up_to_date (calculate_region_and_topology md) := by
  intro hnew
  obtain ⟨hl, hc, hd, he⟩ := calculate_keeps_inputs md
  rw [he] at hnew
  rw [hl, hc, hd]
  simp [calculate_region_and_topology, hnew, get_size, set_size, set_topology]

/-- C9: the sizing invariant `size_up_to_date` (the stored size and topology of
an Md that does not exist in the system are the ones the sizing formula gives
for its level, chunk size and members) holds for a newly constructed Md, and
holds after each of `set_md_level`, `set_chunk_size`, `add_device`,
`remove_device` and `parent_has_new_region`: these recalculate, so the
invariant holds afterwards whatever the stored size was before, and only the
early return of a setter (the new value equals the old one) relies on the
invariant holding before.  The operations do install the new level, chunk
size and member list. -/
theorem sizing_invariant_preserved (md : Md) :
    (∀ md_level, (md.md_level = md_level → size_up_to_date md) →
        size_up_to_date (set_md_level md md_level) ∧
        (set_md_level md md_level).md_level = md_level) ∧
      (∀ chunk_size, (md.chunk_size = chunk_size → size_up_to_date md) →
        size_up_to_date (set_chunk_size md chunk_size) ∧
        (set_chunk_size md chunk_size).chunk_size = chunk_size) ∧
      (∀ blk_device md', add_device md blk_device = .ok md' →
        size_up_to_date md' ∧
        md'.devices = md.devices ++
          [{ sid := blk_device.sid, size := blk_device.size, spare := false, faulty := false }]) ∧
      (∀ blk_device md', remove_device md blk_device = .ok md' →
        size_up_to_date md' ∧
        md'.devices = md.devices.filter (fun d => d.sid != blk_device.sid)) ∧
      (∀ parent, size_up_to_date (parent_has_new_region md parent) ∧
        (parent_has_new_region md parent).md_level = md.md_level ∧
        (parent_has_new_region md parent).chunk_size = md.chunk_size ∧
        (parent_has_new_region md parent).devices = md.devices) ∧
      (∀ exists_in_system sid name md0,
        Md.create exists_in_system sid name = .ok md0 → size_up_to_date md0) := by
  refine ⟨?_, ?_, ?_, ?_, ?_, ?_⟩
  · intro md_level h
    unfold set_md_level
    split_ifs with heq
    · exact ⟨h heq, heq⟩
    · exact ⟨size_up_to_date_calculate _, (calculate_keeps_inputs _).1⟩
  · intro chunk_size h
    unfold set_chunk_size
    split_ifs with heq
    · exact ⟨h heq, heq⟩
    · exact ⟨size_up_to_date_calculate _, (calculate_keeps_inputs _).2.1⟩
  · intro blk_device md' hadd
    unfold add_device at hadd
    split_ifs at hadd
    cases hadd
    exact ⟨size_up_to_date_calculate _, (calculate_keeps_inputs _).2.2.1⟩
  · intro blk_device md' hrem
    unfold remove_device at hrem
    split_ifs at hrem
    cases hrem
    exact ⟨size_up_to_date_calculate _, (calculate_keeps_inputs _).2.2.1⟩
  · intro parent
    exact ⟨size_up_to_date_calculate md, (calculate_keeps_inputs md).1,
      (calculate_keeps_inputs md).2.1, (calculate_keeps_inputs md).2.2.1⟩
  · intro exists_in_system sid name md0 hcreate
    unfold Md.create at hcreate
    split_ifs at hcreate <;>
    · cases hcreate
      intro _
      exact ⟨rfl, rfl⟩

theorem sizing_invariant_preserved_witness :
    ¬ size_up_to_date
        (planned_md MdLevel.RAID1 0 [active_member 1 ten_GiB, active_member 2 ten_GiB]) ∧
      size_up_to_date
        (parent_has_new_region
          (planned_md MdLevel.RAID1 0 [active_member 1 ten_GiB, active_member 2 ten_GiB])
          { sid := 1, size := ten_GiB, num_children := 1 }) ∧
      get_size
        (parent_has_new_region
          (planned_md MdLevel.RAID1 0 [active_member 1 ten_GiB, active_member 2 ten_GiB])
          { sid := 1, size := ten_GiB, num_children := 1 }) = 10603134976 ∧
      size_up_to_date
        (set_md_level
          (planned_md MdLevel.RAID1 0 [active_member 1 ten_GiB, active_member 2 ten_GiB])
          MdLevel.RAID0) ∧
      size_up_to_date (set_md_level raid1_md MdLevel.RAID1) :=
  ⟨by unfold size_up_to_date; decide,
    ((sizing_invariant_preserved
      (planned_md MdLevel.RAID1 0 [active_member 1 ten_GiB, active_member 2 ten_GiB])).2.2.2.2.1
      { sid := 1, size := ten_GiB, num_children := 1 }).1,
    by decide,
    ((sizing_invariant_preserved
      (planned_md MdLevel.RAID1 0 [active_member 1 ten_GiB, active_member 2 ten_GiB])).1
      MdLevel.RAID0 (fun h => absurd h (by decide))).1,
    ((sizing_invariant_preserved raid1_md).1 MdLevel.RAID1
      (fun _ => by unfold size_up_to_date; decide)).1⟩

/-! ## Modify actions -/

/-- C10: for two Md states `lhs` (probed) and `rhs` (staging) with the same
sid, the Md part of `add_modify_actions` throws if and only if `lhs` and `rhs`
differ in name, RAID level, metadata, chunk size or region; when it throws the
actiongraph is as before, so neither an AddToEtcMdadm nor a RemoveFromEtcMdadm
action has been added. -/
theorem modify_fails_iff_structural_change (actiongraph : List Action) (rhs lhs : Md)
    (_hsid : lhs.sid = rhs.sid) :
    ((add_modify_actions actiongraph rhs lhs).error ≠ none ↔
        (lhs.name ≠ rhs.name ∨ lhs.md_level ≠ rhs.md_level ∨ lhs.metadata ≠ rhs.metadata ∨
          lhs.chunk_size ≠ rhs.chunk_size ∨ lhs.region ≠ rhs.region)) ∧
      ((add_modify_actions actiongraph rhs lhs).error ≠ none →
        (add_modify_actions actiongraph rhs lhs).actiongraph = actiongraph) := by
  unfold add_modify_actions
  split_ifs <;> simp [*]

theorem modify_fails_iff_structural_change_witness :
    ((add_modify_actions [] (set_chunk_size probed_md 65536) probed_md).error ≠ none ↔
        (probed_md.name ≠ (set_chunk_size probed_md 65536).name ∨
          probed_md.md_level ≠ (set_chunk_size probed_md 65536).md_level ∨
          probed_md.metadata ≠ (set_chunk_size probed_md 65536).metadata ∨
          probed_md.chunk_size ≠ (set_chunk_size probed_md 65536).chunk_size ∨
          probed_md.region ≠ (set_chunk_size probed_md 65536).region)) ∧
      ((add_modify_actions [] (set_chunk_size probed_md 65536) probed_md).error ≠ none →
        (add_modify_actions [] (set_chunk_size probed_md 65536) probed_md).actiongraph = []) :=
  modify_fails_iff_structural_change [] (set_chunk_size probed_md 65536) probed_md rfl

/-! ## Actions of an Md -/

/-- C11: when the Md part of `add_modify_actions` does not throw, it adds
exactly one AddToEtcMdadm action for the sid of the Md if `in_etc_mdadm`
changed from false to true, exactly one RemoveFromEtcMdadm action if it changed
from true to false, and nothing if `in_etc_mdadm` is unchanged. -/
theorem modify_toggles_etc_mdadm (actiongraph : List Action) (rhs lhs : Md)
    (hok : (add_modify_actions actiongraph rhs lhs).error = none) :
    (lhs.in_etc_mdadm = false → rhs.in_etc_mdadm = true →
        (add_modify_actions actiongraph rhs lhs).actiongraph =
          actiongraph ++ [{ kind := .AddToEtcMdadm, sid := rhs.sid }]) ∧
      (lhs.in_etc_mdadm = true → rhs.in_etc_mdadm = false →
        (add_modify_actions actiongraph rhs lhs).actiongraph =
          actiongraph ++ [{ kind := .RemoveFromEtcMdadm, sid := rhs.sid }]) ∧
      (lhs.in_etc_mdadm = rhs.in_etc_mdadm →
        (add_modify_actions actiongraph rhs lhs).actiongraph = actiongraph) := by
  unfold add_modify_actions at hok ⊢
  split_ifs at hok ⊢ <;> simp_all

theorem modify_toggles_etc_mdadm_witness :
    (add_modify_actions [] probed_md { probed_md with in_etc_mdadm := false }).actiongraph =
      [{ kind := .AddToEtcMdadm, sid := probed_md.sid }] :=
  (modify_toggles_etc_mdadm [] probed_md { probed_md with in_etc_mdadm := false } rfl).1 rfl rfl

theorem update_vertex_append (f : Action → Action) (l r : List Action) (k : Nat) :
    update_vertex f (l.length + k) (l ++ r) = l ++ update_vertex f k r := by
  induction l with
  | nil => simp
  | cons a l ih =>
    have h : (a :: l).length + k = (l.length + k) + 1 := by simp; omega
    rw [h, List.cons_append, update_vertex, ih, List.cons_append]

/-- C12: `add_create_actions` adds exactly one chain to the actiongraph: the
vertices `[Create]` when `in_etc_mdadm` is false and `[Create, AddToEtcMdadm]`,
in that order and linked by one edge, when it is true; every action targets
the sid of the Md, none is a Modify or Delete action, and in the case of two
actions the Create action ends with `last = true` and the AddToEtcMdadm action
with `last = false`. -/
theorem create_actions_chain (actiongraph : Actiongraph) (md : Md) :
    ∃ chain : List Action,
      (add_create_actions actiongraph md).vertices = actiongraph.vertices ++ chain ∧
      chain.map (fun a => a.kind) =
        (if md.in_etc_mdadm then [ActionKind.Create, ActionKind.AddToEtcMdadm]
          else [ActionKind.Create]) ∧
      (∀ a ∈ chain, a.sid = md.sid ∧ a.kind ≠ ActionKind.Modify ∧ a.kind ≠ ActionKind.Delete) ∧
      (md.in_etc_mdadm = true → chain.map (fun a => a.last) = [true, false]) ∧
      (add_create_actions actiongraph md).edges =
        actiongraph.edges ++
          (if md.in_etc_mdadm then
            [(actiongraph.vertices.length, actiongraph.vertices.length + 1)] else []) ∧
      (add_create_actions actiongraph md).mount_root_filesystem =
        actiongraph.mount_root_filesystem := by
  cases h : md.in_etc_mdadm
  · refine ⟨[{ kind := .Create, sid := md.sid, first := true, last := true }], ?_⟩
    simp [add_create_actions, add_chain, flag_chain, h]
  · refine ⟨[{ kind := .Create, sid := md.sid, first := true, last := true },
      { kind := .AddToEtcMdadm, sid := md.sid, first := false, last := false }], ?_⟩
    have h0 := update_vertex_append (fun a => { a with last := true }) actiongraph.vertices
      [{ kind := .Create, sid := md.sid, first := true, last := false },
        { kind := .AddToEtcMdadm, sid := md.sid, first := false, last := true }] 0
    have h1 := update_vertex_append (fun a => { a with last := false }) actiongraph.vertices
      [{ kind := .Create, sid := md.sid, first := true, last := true },
        { kind := .AddToEtcMdadm, sid := md.sid, first := false, last := true }] 1
    simp only [Nat.add_zero] at h0
    simp [add_create_actions, add_chain, flag_chain, h, h0, h1, update_vertex, List.range_succ]

/-- C13: `add_delete_actions` adds exactly one chain to the actiongraph:
RemoveFromEtcMdadm (present iff `in_etc_mdadm`), then Deactivate (present iff
the Md is active), then Delete, each linked to the next by an edge; all
actions target the sid of the Md, the chain has between 1 and 3 actions and
Delete is its last action. -/
theorem delete_actions_chain (actiongraph : Actiongraph) (md : Md) :
    ∃ chain : List Action,
      (add_delete_actions actiongraph md).vertices = actiongraph.vertices ++ chain ∧
      chain.map (fun a => a.kind) =
        (if md.in_etc_mdadm then [ActionKind.RemoveFromEtcMdadm] else []) ++
          (if md.active then [ActionKind.Deactivate] else []) ++ [ActionKind.Delete] ∧
      (∀ a ∈ chain, a.sid = md.sid) ∧
      1 ≤ chain.length ∧ chain.length ≤ 3 ∧
      chain.getLast?.map (fun a => a.kind) = some ActionKind.Delete ∧
      (add_delete_actions actiongraph md).edges =
        actiongraph.edges ++
          (List.range (chain.length - 1)).map
            (fun i => (actiongraph.vertices.length + i, actiongraph.vertices.length + i + 1)) ∧
      (add_delete_actions actiongraph md).mount_root_filesystem =
        actiongraph.mount_root_filesystem := by
  refine ⟨flag_chain
    (((if md.in_etc_mdadm then [({ kind := .RemoveFromEtcMdadm, sid := md.sid } : Action)] else []) ++
      (if md.active then [({ kind := .Deactivate, sid := md.sid } : Action)] else []) ++
      [({ kind := .Delete, sid := md.sid } : Action)]).length) 0
    ((if md.in_etc_mdadm then [({ kind := .RemoveFromEtcMdadm, sid := md.sid } : Action)] else []) ++
      (if md.active then [({ kind := .Deactivate, sid := md.sid } : Action)] else []) ++
      [({ kind := .Delete, sid := md.sid } : Action)]), ?_⟩
  cases h1 : md.in_etc_mdadm <;> cases h2 : md.active <;>
    simp [add_delete_actions, add_chain, flag_chain, h1, h2, List.range_succ]

/-- C14: after `AddToEtcMdadm::add_dependencies` has run for a vertex `v`: if
the actiongraph has an action `m` that mounts the root filesystem, the edge
"`m` before `v`" is in the graph, as the one edge added after
`Modify::add_dependencies`; if it has none, the graph is as
`Modify::add_dependencies` left it. -/
theorem add_to_etc_mdadm_after_root_mount
    (modify_add_dependencies : Nat → Actiongraph → Actiongraph)
    (v : Nat) (actiongraph : Actiongraph) :
    (∀ m, (modify_add_dependencies v actiongraph).mount_root_filesystem = some m →
        (m, v) ∈ (AddToEtcMdadm.add_dependencies modify_add_dependencies v actiongraph).edges ∧
        (AddToEtcMdadm.add_dependencies modify_add_dependencies v actiongraph).edges =
          (modify_add_dependencies v actiongraph).edges ++ [(m, v)] ∧
        (AddToEtcMdadm.add_dependencies modify_add_dependencies v actiongraph).vertices =
          (modify_add_dependencies v actiongraph).vertices) ∧
      ((modify_add_dependencies v actiongraph).mount_root_filesystem = none →
        AddToEtcMdadm.add_dependencies modify_add_dependencies v actiongraph =
          modify_add_dependencies v actiongraph) := by
  refine ⟨?_, ?_⟩
  · intro m hm
    simp [AddToEtcMdadm.add_dependencies, hm, add_edge]
  · intro hnone
    simp [AddToEtcMdadm.add_dependencies, hnone]

/-! ## The names of an Md -/

theorem take_beq_iff (p l : List Char) :
    (l.take p.length == p) = true ↔ l = p ++ l.drop p.length := by
  rw [beq_iff_eq]
  constructor
  · intro h
    conv_lhs => rw [← List.take_append_drop p.length l]
    rw [h]
  · intro h
    conv_lhs => rw [h]
    simp

theorem dev_md_chars : "/dev/md".toList = ['/', 'd', 'e', 'v', '/', 'm', 'd'] := rfl
theorem dev_md_dir_chars : "/dev/md/".toList = ['/', 'd', 'e', 'v', '/', 'm', 'd', '/'] := rfl

theorem matches_numeric_iff (name : String) :
    matches_numeric_name_regex name = true ↔
      ∃ N : List Char, N ≠ [] ∧ (∀ c ∈ N, c.isDigit = true) ∧
        (name.toList = "/dev/md".toList ++ N ∨ name.toList = "/dev/md/".toList ++ N) := by
  unfold matches_numeric_name_regex
  simp only [dev_md_chars, dev_md_dir_chars]
  generalize name.toList = cs
  constructor
  · intro h
    simp only [Bool.and_eq_true, Bool.or_eq_true, Bool.not_eq_true', List.all_eq_true] at h
    obtain ⟨h7, h⟩ := h
    have h7' := (take_beq_iff ['/', 'd', 'e', 'v', '/', 'm', 'd'] cs).1 h7
    simp only [List.length_cons, List.length_nil] at h7'
    rcases h with ⟨hne, hd⟩ | ⟨h1, hne, hd⟩
    · refine ⟨cs.drop 7, ?_, hd, Or.inl h7'⟩
      intro h0; simp [h0] at hne
    · refine ⟨cs.drop 8, ?_, hd, Or.inr ?_⟩
      · intro h0; simp [h0] at hne
      · have h1' := (take_beq_iff ['/'] (cs.drop 7)).1 h1
        simp only [List.length_cons, List.length_nil, List.drop_drop] at h1'
        rw [h7', h1']
        simp
  · rintro ⟨N, hne, hd, h | h⟩
    · subst h
      cases N with
      | nil => exact absurd rfl hne
      | cons c N =>
        simp only [Bool.and_eq_true, Bool.or_eq_true]
        refine ⟨by simp, Or.inl ?_⟩
        simpa using hd
    · subst h
      cases N with
      | nil => exact absurd rfl hne
      | cons c N =>
        simp only [Bool.and_eq_true, Bool.or_eq_true]
        refine ⟨by simp, Or.inr ?_⟩
        simpa using hd

theorem matches_format1_iff (name : String) :
    matches_format1_name_regex name = true ↔
      ∃ s : List Char, s ≠ [] ∧ (∀ c ∈ s, c ≠ '/' ∧ c ≠ ' ') ∧
        name.toList = "/dev/md/".toList ++ s := by
  unfold matches_format1_name_regex
  simp only [dev_md_dir_chars]
  generalize name.toList = cs
  constructor
  · intro h
    simp only [Bool.and_eq_true, Bool.not_eq_true', List.all_eq_true, bne_iff_ne, ne_eq] at h
    obtain ⟨⟨h8, hne⟩, hs⟩ := h
    have h8' := (take_beq_iff ['/', 'd', 'e', 'v', '/', 'm', 'd', '/'] cs).1 h8
    simp only [List.length_cons, List.length_nil] at h8'
    refine ⟨cs.drop 8, ?_, hs, h8'⟩
    intro h0; simp [h0] at hne
  · rintro ⟨s, hne, hs, h⟩
    subst h
    cases s with
    | nil => exact absurd rfl hne
    | cons c s =>
      simp only [Bool.and_eq_true, Bool.not_eq_true', List.all_eq_true, bne_iff_ne, ne_eq]
      refine ⟨⟨by simp, by simp⟩, ?_⟩
      simpa using hs

/-- C19: creating an Md with a given name fails if and only if `is_valid_name`
rejects the name, and `is_valid_name` accepts exactly the names `/dev/md<N>`
and `/dev/md/<N>` with `<N>` a non-empty string of decimal digits and the
names `/dev/md/<name>` with `<name>` a non-empty string without `/` and
without a space; `/dev/md`, `/dev/md/`, `/dev/md/a b` and `/dev/mdx` are
rejected. -/
theorem md_name_grammar (name : String) :
    (∀ exists_in_system sid,
        (∃ e, Md.create exists_in_system sid name = .error e) ↔ is_valid_name name = false) ∧
      (is_valid_name name = true ↔
        (∃ N : List Char, N ≠ [] ∧ (∀ c ∈ N, c.isDigit = true) ∧
          (name.toList = "/dev/md".toList ++ N ∨ name.toList = "/dev/md/".toList ++ N)) ∨
        (∃ s : List Char, s ≠ [] ∧ (∀ c ∈ s, c ≠ '/' ∧ c ≠ ' ') ∧
          name.toList = "/dev/md/".toList ++ s)) ∧
      is_valid_name "/dev/md" = false ∧ is_valid_name "/dev/md/" = false ∧
      is_valid_name "/dev/md/a b" = false ∧ is_valid_name "/dev/mdx" = false := by
  refine ⟨?_, ?_, by decide, by decide, by decide, by decide⟩
  · intro exists_in_system sid
    unfold Md.create
    cases h : is_valid_name name <;> simp
  · unfold is_valid_name
    rw [Bool.or_eq_true, matches_numeric_iff, matches_format1_iff]

/-! ## Adding a device to an Md -/

/-- C20 (amended): `add_device` fails, with WrongNumberOfChildren, if and only
if the block device already has a child; a failing call returns the exception
only, so no holder is created and the size of the Md is unchanged.  On success
exactly one member, linked by a holder that is neither spare nor faulty, is
added and `calculate_region_and_topology` is run for the new member list: an Md
that does not exist in the system gets the size and topology of the sizing
formula for the new members, an Md that exists in the system keeps its region
and topology. -/
theorem add_device_result (md : Md) (blk_device : BlkDevice) :
    ((∃ e, add_device md blk_device = .error e) ↔ blk_device.num_children ≠ 0) ∧
      (blk_device.num_children ≠ 0 →
        add_device md blk_device =
          .error (.WrongNumberOfChildren blk_device.num_children 0)) ∧
      (blk_device.num_children = 0 →
        ∃ md', add_device md blk_device = .ok md' ∧
          md'.devices = md.devices ++
            [{ sid := blk_device.sid, size := blk_device.size, spare := false,
               faulty := false }] ∧
          size_up_to_date md' ∧
          (md.exists_in_system = true →
            md'.region = md.region ∧ md'.topology = md.topology)) := by
  refine ⟨?_, ?_, ?_⟩
  · unfold add_device
    split_ifs with h <;> simp [h]
  · intro h
    unfold add_device
    rw [if_pos h]
  · intro h
    refine ⟨_, by unfold add_device; rw [if_neg (by omega)], ?_, ?_, ?_⟩
    · exact (calculate_keeps_inputs _).2.2.1
    · exact size_up_to_date_calculate _
    · intro hex
      rw [calculate_of_exists _ (by exact hex)]
      exact ⟨rfl, rfl⟩

/-- C20 as stated fails for an Md that exists in the system: adding a device of
1 GiB without children to the probed RAID1 succeeds and adds the member, but
the size stays 10737287168, while the sizing formula gives 1056899072 for the
new member list. -/
theorem add_device_result_counterexample :
    ∃ md', add_device probed_md { sid := 3, size := 1073741824, num_children := 0 } = .ok md' ∧
      md'.devices.length = 3 ∧
      get_size md' = 10737287168 ∧
      (computed_size_and_io md'.md_level md'.chunk_size md'.devices).1 = 1056899072 := by
  refine ⟨_, rfl, ?_, ?_, ?_⟩ <;> decide

/-! ## Pending holders -/

theorem flush_loop_ok_iff {G D B : Type} (lookup : G → String → Option D)
    (pending : List (pending_holder_t G D B)) (system system' : G) :
    flush_loop lookup pending system = (system', none) ↔
      built_in_order lookup pending system system' := by
  induction pending generalizing system with
  | nil =>
    constructor
    · intro h
      simp only [flush_loop, Prod.mk.injEq, and_true] at h
      subst h
      exact built_in_order.nil _
    · intro h
      cases h
      rfl
  | cons e es ih =>
    constructor
    · intro h
      unfold flush_loop find_by_any_name at h
      cases hl : lookup system e.name with
      | none => simp [hl] at h
      | some a =>
        simp only [hl] at h
        cases hf : e.add_holder_func system a e.b with
        | mk system1 err =>
          cases err with
          | some x => simp [hf] at h
          | none =>
            simp only [hf] at h
            exact built_in_order.cons e es system system1 system' a hl hf ((ih system1).1 h)
    · intro h
      cases h with
      | cons _ _ _ system1 _ a hl hf hrest =>
        unfold flush_loop find_by_any_name
        simp only [hl, hf]
        exact (ih system1).2 hrest

theorem flush_loop_unresolved {G D B : Type} (lookup : G → String → Option D)
    (pre post : List (pending_holder_t G D B)) (e : pending_holder_t G D B)
    (system system1 : G)
    (hpre : built_in_order lookup pre system system1)
    (hnone : lookup system1 e.name = none) :
    flush_loop lookup (pre ++ e :: post) system =
      (system1, some (.DeviceNotFoundByName e.name)) := by
  induction hpre with
  | nil system =>
    simp [flush_loop, find_by_any_name, hnone]
  | cons f rest system system2 system3 a hl hf _ ih =>
    rw [List.cons_append]
    unfold flush_loop find_by_any_name
    simp only [hl, hf]
    exact ih hnone

/-- C15: a holder requested through `add_holder` is built exactly once by the
time `flush_pending_holders` has succeeded.  If the name resolves to a block
device `a` when `add_holder` is called, the holder function runs at once with
`a` and nothing is queued; otherwise the holder function does not run and
exactly one pending entry is appended.  `flush_pending_holders` succeeds
exactly when the holder function of every pending entry runs, once and in
queue order, with the device its name resolves to by then, and it leaves the
queue empty. -/
theorem holders_built_once {G D B : Type} (lookup : G → String → Option D)
    (prober : Prober G D B) :
    (∀ name b add_holder_func a, lookup prober.system name = some a →
        prober.add_holder lookup name b add_holder_func =
          ({ prober with system := (add_holder_func prober.system a b).1 },
            (add_holder_func prober.system a b).2)) ∧
      (∀ name b add_holder_func, lookup prober.system name = none →
        prober.add_holder lookup name b add_holder_func =
          ({ prober with
              pending_holders := prober.pending_holders ++
                [{ name := name, b := b, add_holder_func := add_holder_func }] }, none)) ∧
      (∀ prober', prober.flush_pending_holders lookup = (prober', none) ↔
        (built_in_order lookup prober.pending_holders prober.system prober'.system ∧
          prober'.pending_holders = [])) := by
  refine ⟨?_, ?_, ?_⟩
  · intro name b add_holder_func a ha
    simp [Prober.add_holder, exists_by_any_name, find_by_any_name, ha]
  · intro name b add_holder_func hnone
    simp [Prober.add_holder, exists_by_any_name, hnone]
  · intro prober'
    unfold Prober.flush_pending_holders
    cases hf : flush_loop lookup prober.pending_holders prober.system with
    | mk system1 err =>
      cases err with
      | some e => 
        simp only [Prod.mk.injEq, false_iff, not_and, reduceCtorEq, and_false]
        intro hb
        have := (flush_loop_ok_iff lookup _ _ _).2 hb
        rw [hf] at this
        simp at this
      | none =>
        have hiff := flush_loop_ok_iff lookup prober.pending_holders prober.system
        cases prober' with
        | mk system' pending' =>
          simp only [Prod.mk.injEq, and_true, Prober.mk.injEq]
          constructor
          · rintro ⟨h1, h2⟩
            subst h1 h2
            exact ⟨(hiff _).1 hf, rfl⟩
          · rintro ⟨h1, h2⟩
            have h3 := (hiff _).2 h1
            rw [hf] at h3
            simp only [Prod.mk.injEq, and_true] at h3
            exact ⟨h3, h2.symm⟩

/-- An example of a flush that succeeds: the pending holder for `/dev/sda1` is
built and the queue is empty afterwards. -/
theorem flush_pending_holders_example :
    Prober.flush_pending_holders toy_lookup
        { system := { names := ["/dev/sda1"], holders := [] },
          pending_holders :=
            [{ name := "/dev/sda1", b := 50, add_holder_func := toy_add_holder }] } =
      ({ system := { names := ["/dev/sda1"], holders := [("/dev/sda1", 50)] },
         pending_holders := [] }, none) := by
  simp [Prober.flush_pending_holders, flush_loop, find_by_any_name, toy_lookup, toy_add_holder]

/-- C16: if the name of a pending holder does not resolve when its turn comes
in `flush_pending_holders`, the function ends with the exception
DeviceNotFoundByName: the entries before it have been built, no entry after it
is processed and the queue is not cleared.  The exception leaves the
constructor of the prober, whatever pass 2 would do: pass 2 does not run and
nothing is tried again. -/
theorem unresolved_holder_is_fatal {G D B : Type} (lookup : G → String → Option D)
    (prober : Prober G D B) (pre post : List (pending_holder_t G D B))
    (e : pending_holder_t G D B) (system1 : G)
    (hpending : prober.pending_holders = pre ++ e :: post)
    (hpre : built_in_order lookup pre prober.system system1)
    (hnone : lookup system1 e.name = none) :
    prober.flush_pending_holders lookup =
        ({ prober with system := system1 }, some (.DeviceNotFoundByName e.name)) ∧
      ∀ (pass_1a pass_1b pass_1c : Prober G D B → Prober G D B × Option StorageError)
        (pass_2 : G → G × Option StorageError) (start : Prober G D B),
        (∃ p1 p2, pass_1a start = (p1, none) ∧ pass_1b p1 = (p2, none) ∧
          pass_1c p2 = (prober, none)) →
        Prober.probe lookup pass_1a pass_1b pass_1c pass_2 start =
          ({ prober with system := system1 }, some (.DeviceNotFoundByName e.name)) := by
  have hflush : prober.flush_pending_holders lookup =
      ({ prober with system := system1 }, some (.DeviceNotFoundByName e.name)) := by
    unfold Prober.flush_pending_holders
    rw [hpending, flush_loop_unresolved lookup pre post e prober.system system1 hpre hnone]
  refine ⟨hflush, ?_⟩
  rintro pass_1a pass_1b pass_1c pass_2 start ⟨p1, p2, h1, h2, h3⟩
  unfold Prober.probe
  simp only [h1, h2, h3, hflush]

theorem unresolved_holder_is_fatal_witness :
    toy_prober.flush_pending_holders toy_lookup =
        ({ toy_prober with system := { names := ["/dev/sda1"], holders := [("/dev/sda1", 50)] } },
          some (.DeviceNotFoundByName "/dev/sdz1")) ∧
      ∀ (pass_1a pass_1b pass_1c :
          Prober ToyGraph String Nat → Prober ToyGraph String Nat × Option StorageError)
        (pass_2 : ToyGraph → ToyGraph × Option StorageError)
        (start : Prober ToyGraph String Nat),
        (∃ p1 p2, pass_1a start = (p1, none) ∧ pass_1b p1 = (p2, none) ∧
          pass_1c p2 = (toy_prober, none)) →
        Prober.probe toy_lookup pass_1a pass_1b pass_1c pass_2 start =
          ({ toy_prober with
              system := { names := ["/dev/sda1"], holders := [("/dev/sda1", 50)] } },
            some (.DeviceNotFoundByName "/dev/sdz1")) :=
  unresolved_holder_is_fatal toy_lookup toy_prober
    [{ name := "/dev/sda1", b := 50, add_holder_func := toy_add_holder }]
    [{ name := "/dev/sda1", b := 51, add_holder_func := toy_add_holder }]
    { name := "/dev/sdz1", b := 50, add_holder_func := toy_add_holder }
    { names := ["/dev/sda1"], holders := [("/dev/sda1", 50)] }
    rfl
    (built_in_order.cons _ _ _ _ _ "/dev/sda1" (by decide) rfl (built_in_order.nil _))
    (by decide)

/-! ## Probing MD RAIDs -/

theorem probe_mds_spec (env : MdProbeEnv) (error : String → StorageError → Bool)
    (hcont : ∀ m e, error m e = true) (names : List String) (system : ProbedSystem)
    (reported : List (String × StorageError)) :
    (probe_mds env (some error) names system reported).error = none ∧
      (probe_mds env (some error) names system reported).system =
        names.foldl (fun s n => (probe_md env s n).1) system ∧
      (probe_mds env (some error) names system reported).reported =
        reported ++ (entry_outcomes env names system).filterMap report_of_outcome := by
  induction names generalizing system reported with
  | nil => simp [probe_mds, entry_outcomes]
  | cons n ns ih =>
    unfold probe_mds entry_outcomes
    rw [List.foldl_cons, List.filterMap_cons]
    rcases hp : probe_md env system n with ⟨system1, name, err⟩
    cases err with
    | none =>
      simp only [report_of_outcome]
      exact ih system1 reported
    | some e =>
      simp only [error_callback, hcont, if_true, report_of_outcome]
      have := ih system1 (reported ++ [("Probing MD RAID " ++ name ++ " failed", e)])
      simpa [List.append_assoc] using this

theorem entry_outcomes_names (env : MdProbeEnv) (names : List String) (system : ProbedSystem) :
    (entry_outcomes env names system).map (fun o => o.1) = names := by
  induction names generalizing system with
  | nil => rfl
  | cons n ns ih => simp [entry_outcomes, ih]

theorem probe_md_devices (env : MdProbeEnv) (system : ProbedSystem) (short_name : String) :
    (probe_md env system short_name).1 = system ∨
      ∃ d, (probe_md env system short_name).1 =
        { devices := system.devices ++ [d], next_sid := system.next_sid + 1 } := by
  unfold probe_md
  cases env.getMdadmDetail ("/dev" ++ "/" ++ short_name) with
  | error e => exact Or.inl rfl
  | ok mdadm_detail =>
    simp only
    cases env.get_entry short_name with
    | error e => exact Or.inl rfl
    | ok entry =>
      simp only
      split_ifs
      · cases env.md_container_create (probed_md_name env short_name mdadm_detail) with
        | some e => exact Or.inl rfl
        | none => exact Or.inr ⟨_, rfl⟩
      · cases env.md_member_create (probed_md_name env short_name mdadm_detail) with
        | some e => exact Or.inl rfl
        | none => exact Or.inr ⟨_, rfl⟩
      · cases Md.create true system.next_sid (probed_md_name env short_name mdadm_detail) with
        | error e => exact Or.inl rfl
        | ok md => exact Or.inr ⟨_, rfl⟩

theorem probe_md_early_failure (env : MdProbeEnv) (system : ProbedSystem) (short_name : String)
    (h : (∃ e, env.getMdadmDetail ("/dev" ++ "/" ++ short_name) = .error e) ∨
      (∃ e, env.get_entry short_name = .error e)) :
    (probe_md env system short_name).1 = system ∧
      (probe_md env system short_name).2.2 ≠ none := by
  unfold probe_md
  cases h1 : env.getMdadmDetail ("/dev" ++ "/" ++ short_name) with
  | error e => simp
  | ok mdadm_detail =>
    rcases h with ⟨e, he⟩ | ⟨e, he⟩
    · rw [h1] at he; cases he
    · simp [he]

theorem probe_md_plain_md (env : MdProbeEnv) (system : ProbedSystem) (short_name : String)
    (mdadm_detail : MdadmDetail) (entry : ProcMdstatEntry)
    (hd : env.getMdadmDetail ("/dev" ++ "/" ++ short_name) = .ok mdadm_detail)
    (he : env.get_entry short_name = .ok entry)
    (hc : entry.is_container = false) (hm : entry.has_container = false) :
    (is_valid_name (probed_md_name env short_name mdadm_detail) = false →
        (probe_md env system short_name).1 = system ∧
          (probe_md env system short_name).2.2 ≠ none) ∧
      (∀ md, Md.create true system.next_sid (probed_md_name env short_name mdadm_detail) =
          .ok md →
        (probe_md env system short_name).1.devices =
            system.devices ++
              [.md (Md.probe_pass_1a env { md with active := !entry.inactive }).1] ∧
          (probe_md env system short_name).2.2 =
            (Md.probe_pass_1a env { md with active := !entry.inactive }).2) := by
  refine ⟨?_, ?_⟩
  · intro hv
    have hcr : Md.create true system.next_sid (probed_md_name env short_name mdadm_detail) =
        .error (.Exception "invalid Md name") := by
      simp [Md.create, hv]
    unfold probe_md
    rw [hd]
    simp only
    rw [he]
    simp [hc, hm, hcr]
  · intro md hmd
    unfold probe_md
    rw [hd]
    simp only
    rw [he]
    simp [hc, hm, hmd]

/-- C17 (amended): when the probe callbacks answer "continue", `probe_mds` does
not fail, whatever entries fail: every entry of the list is probed, in order,
each in the system its predecessors left, and exactly one error is reported
for every failing entry.  A failing entry leaves the system untouched when
`mdadm --detail` or the mdstat entry cannot be read or when the name is not a
valid Md name, and an entry adds at most one device; an Md whose
`probe_pass_1a` fails has already been created and stays in the system, as
`probe_pass_1a` left it. -/
theorem probe_mds_reports_and_continues (env : MdProbeEnv)
    (error : String → StorageError → Bool) (hcont : ∀ m e, error m e = true)
    (names : List String) (system : ProbedSystem) (reported : List (String × StorageError)) :
    (probe_mds env (some error) names system reported).error = none ∧
      (probe_mds env (some error) names system reported).system =
        names.foldl (fun s n => (probe_md env s n).1) system ∧
      (probe_mds env (some error) names system reported).reported =
        reported ++ (entry_outcomes env names system).filterMap report_of_outcome ∧
      (entry_outcomes env names system).map (fun o => o.1) = names ∧
      (∀ system short_name,
        (probe_md env system short_name).1 = system ∨
          ∃ d, (probe_md env system short_name).1 =
            { devices := system.devices ++ [d], next_sid := system.next_sid + 1 }) ∧
      (∀ system short_name,
        ((∃ e, env.getMdadmDetail ("/dev" ++ "/" ++ short_name) = .error e) ∨
          (∃ e, env.get_entry short_name = .error e)) →
        (probe_md env system short_name).1 = system ∧
          (probe_md env system short_name).2.2 ≠ none) ∧
      (∀ system short_name mdadm_detail entry,
        env.getMdadmDetail ("/dev" ++ "/" ++ short_name) = .ok mdadm_detail →
        env.get_entry short_name = .ok entry →
        entry.is_container = false → entry.has_container = false →
        (is_valid_name (probed_md_name env short_name mdadm_detail) = false →
            (probe_md env system short_name).1 = system ∧
              (probe_md env system short_name).2.2 ≠ none) ∧
          (∀ md,
            Md.create true system.next_sid (probed_md_name env short_name mdadm_detail) =
              .ok md →
            (probe_md env system short_name).1.devices =
                system.devices ++
                  [.md (Md.probe_pass_1a env { md with active := !entry.inactive }).1] ∧
              (probe_md env system short_name).2.2 =
                (Md.probe_pass_1a env { md with active := !entry.inactive }).2)) := by
  obtain ⟨h1, h2, h3⟩ := probe_mds_spec env error hcont names system reported
  exact ⟨h1, h2, h3, entry_outcomes_names env names system, probe_md_devices env,
    probe_md_early_failure env, probe_md_plain_md env⟩

theorem probe_mds_reports_and_continues_witness :
    (probe_mds example_md_env (some continue_callbacks) ["md0", "md1", "md127"]
        empty_system []).error = none ∧
      (probe_mds example_md_env (some continue_callbacks) ["md0", "md1", "md127"]
        empty_system []).system =
        ["md0", "md1", "md127"].foldl (fun s n => (probe_md example_md_env s n).1)
          empty_system :=
  ⟨(probe_mds_reports_and_continues example_md_env continue_callbacks (fun _ _ => rfl)
      ["md0", "md1", "md127"] empty_system []).1,
    (probe_mds_reports_and_continues example_md_env continue_callbacks (fun _ _ => rfl)
      ["md0", "md1", "md127"] empty_system []).2.1⟩

/-- C17 as stated fails in its last part: the array `md127`, linked as
`/dev/md/data`, is created as an Md, then `mdadm --detail /dev/md/data` fails
inside `probe_pass_1a`; the failure is reported once, `probe_mds` does not fail,
and the Md, with level UNKNOWN, is a device of the system. -/
theorem probe_mds_reports_and_continues_counterexample :
    (probe_md example_md_env empty_system "md127").2.2 =
        some (.Exception "mdadm --detail failed") ∧
      (probe_mds example_md_env (some continue_callbacks) ["md127"] empty_system []).error =
        none ∧
      (probe_mds example_md_env (some continue_callbacks) ["md127"] empty_system []).reported =
        [("Probing MD RAID /dev/md/data failed", .Exception "mdadm --detail failed")] ∧
      (probe_mds example_md_env (some continue_callbacks) ["md127"]
          empty_system []).system.devices =
        [.md
          { sid := 42, name := "/dev/md/data", md_level := .UNKNOWN, md_parity := .DEFAULT,
            chunk_size := 0, uuid := "", metadata := "", in_etc_mdadm := true,
            active := true, exists_in_system := true,
            region := { start := 0, size := 0, block_size := 512 },
            topology := { alignment_offset := 0, optimal_io_size := 0 },
            devices := [], sysfs_name := "md127" }] := by
  decide

/-! ## Pass 2 of the prober -/

theorem pass_2_respects_refl (blkid : String → Option BlkidEntry) (d : GraphBlkDevice) :
    pass_2_respects blkid d d :=
  ⟨rfl, rfl, rfl, fun _ => rfl, fun h => absurd rfl h⟩

theorem forall₂_pass_2_respects_refl (blkid : String → Option BlkidEntry)
    (l : List GraphBlkDevice) : List.Forall₂ (pass_2_respects blkid) l l := by
  induction l with
  | nil => exact List.Forall₂.nil
  | cons d l ih => exact List.Forall₂.cons (pass_2_respects_refl blkid d) ih

theorem on_unused_active_device_cons (blkid : String → Option BlkidEntry)
    (d : GraphBlkDevice) (ds : List GraphBlkDevice) (f : BlkFilesystem)
    (h : on_unused_active_device blkid ds f) : on_unused_active_device blkid (d :: ds) f := by
  obtain ⟨e, he, rest⟩ := h
  exact ⟨e, List.mem_cons_of_mem _ he, rest⟩

/-- C18: in pass 2 a block filesystem is created on a block device only if the
device, as the passes 1a to 1d left it, has no children and is active and
`blkid` reports a filesystem of a supported type for it; a device with a child
and an inactive device are left as they were, so no filesystem is created on a
device that something else uses. -/
theorem filesystems_only_on_unused_active_devices (blkid : String → Option BlkidEntry)
    (probe_pass_2 : BlkFilesystem → Option StorageError)
    (devices : List GraphBlkDevice) (next_sid : Nat) :
    List.Forall₂ (pass_2_respects blkid) devices
        (pass_2_loop blkid probe_pass_2 devices next_sid).blk_devices ∧
      ∀ f ∈ (pass_2_loop blkid probe_pass_2 devices next_sid).created,
        on_unused_active_device blkid devices f := by
  induction devices generalizing next_sid with
  | nil => simp [pass_2_loop]
  | cons d ds ih =>
    have hskip : List.Forall₂ (pass_2_respects blkid) (d :: ds)
          (d :: (pass_2_loop blkid probe_pass_2 ds next_sid).blk_devices) ∧
        ∀ f ∈ (pass_2_loop blkid probe_pass_2 ds next_sid).created,
          on_unused_active_device blkid (d :: ds) f :=
      ⟨List.Forall₂.cons (pass_2_respects_refl blkid d) (ih next_sid).1,
        fun f hf => on_unused_active_device_cons blkid d ds f ((ih next_sid).2 f hf)⟩
    unfold pass_2_loop
    simp only
    split_ifs with hc ha
    · exact hskip
    · exact hskip
    · cases hb : blkid d.name with
      | none => exact hskip
      | some entry =>
        simp only
        split_ifs with hfs hun
        · exact hskip
        · have hchildren : d.children = [] := by simpa using hc
          have hactive : d.active = true := by simpa using ha
          have hun' : unsupported_filesystem entry.fs_type = false := by simpa using hun
          have hd : pass_2_respects blkid d { d with children := d.children ++ [next_sid] } := by
            refine ⟨rfl, rfl, rfl, ?_, ?_⟩
            · rintro (h | h)
              · exact absurd hchildren h
              · rw [hactive] at h; exact absurd h (by decide)
            · intro _
              exact ⟨hchildren, hactive, entry, hb, hfs, hun'⟩
          have hf : on_unused_active_device blkid (d :: ds)
              { sid := next_sid, fs_type := entry.fs_type, blk_device := d.sid } :=
            ⟨d, List.mem_cons_self _ _, rfl, hchildren, hactive, entry, hb, hfs, rfl, hun'⟩
          cases hp : probe_pass_2
              { sid := next_sid, fs_type := entry.fs_type, blk_device := d.sid } with
          | some e =>
            simp only
            refine ⟨List.Forall₂.cons hd (forall₂_pass_2_respects_refl blkid ds), ?_⟩
            intro f hfm
            rw [List.mem_singleton] at hfm
            rw [hfm]
            exact hf
          | none =>
            simp only
            refine ⟨List.Forall₂.cons hd (ih (next_sid + 1)).1, ?_⟩
            intro f hfm
            rcases List.mem_cons.1 hfm with h | h
            · rw [h]; exact hf
            · exact on_unused_active_device_cons blkid d ds f ((ih (next_sid + 1)).2 f h)
        · exact hskip

/-! ## Allowed parities -/

/-- C21: `get_allowed_md_parities` depends on the RAID level and the number of
members that are not spare only.  For RAID10 with at most 2 such members it is
`[DEFAULT, NEAR_2, OFFSET_2, FAR_2]`, which has the 2-way layouts and none of
the 3-way layouts; with more than 2 it is the same list followed by `NEAR_3`,
`OFFSET_3` and `FAR_3`.  For every other level it depends on the level only,
and it is empty for UNKNOWN, RAID0, RAID1, RAID4 and CONTAINER. -/
theorem allowed_parities_by_level_and_number (md md' : Md) :
    (md.md_level = md'.md_level → number_of_devices md = number_of_devices md' →
        get_allowed_md_parities md = get_allowed_md_parities md') ∧
      (md.md_level = MdLevel.RAID10 → number_of_devices md ≤ 2 →
        get_allowed_md_parities md =
            [MdParity.DEFAULT, MdParity.NEAR_2, MdParity.OFFSET_2, MdParity.FAR_2] ∧
          MdParity.NEAR_2 ∈ get_allowed_md_parities md ∧
          MdParity.OFFSET_2 ∈ get_allowed_md_parities md ∧
          MdParity.FAR_2 ∈ get_allowed_md_parities md ∧
          MdParity.NEAR_3 ∉ get_allowed_md_parities md ∧
          MdParity.OFFSET_3 ∉ get_allowed_md_parities md ∧
          MdParity.FAR_3 ∉ get_allowed_md_parities md) ∧
      (md.md_level = MdLevel.RAID10 → 2 < number_of_devices md →
        get_allowed_md_parities md =
          [MdParity.DEFAULT, MdParity.NEAR_2, MdParity.OFFSET_2, MdParity.FAR_2] ++
            [MdParity.NEAR_3, MdParity.OFFSET_3, MdParity.FAR_3]) ∧
      (md.md_level ≠ MdLevel.RAID10 → md.md_level = md'.md_level →
        get_allowed_md_parities md = get_allowed_md_parities md') ∧
      ((md.md_level = MdLevel.UNKNOWN ∨ md.md_level = MdLevel.RAID0 ∨
          md.md_level = MdLevel.RAID1 ∨ md.md_level = MdLevel.RAID4 ∨
          md.md_level = MdLevel.CONTAINER) →
        get_allowed_md_parities md = []) := by
  refine ⟨?_, ?_, ?_, ?_, ?_⟩
  · intro hl hn
    unfold get_allowed_md_parities
    rw [← hl, ← hn]
  · intro hl hn
    have h : get_allowed_md_parities md =
        [MdParity.DEFAULT, MdParity.NEAR_2, MdParity.OFFSET_2, MdParity.FAR_2] := by
      unfold get_allowed_md_parities
      rw [hl]
      simp only [hn, if_true]
    rw [h]
    decide
  · intro hl hn
    unfold get_allowed_md_parities
    rw [hl]
    simp only [Nat.not_le.2 hn, if_false]
    rfl
  · intro hne hl
    unfold get_allowed_md_parities
    rw [← hl]
    cases h : md.md_level <;> simp_all
  · intro h
    unfold get_allowed_md_parities
    rcases h with h | h | h | h | h <;> rw [h]

/-! ## Checks of the chunk size -/

theorem chunk_text_injective (name s t : String)
    (h : "Chunk size of MD " ++ name ++ s = "Chunk size of MD " ++ name ++ t) : s = t := by
  have h1 := congrArg String.data h
  simp only [String.data_append] at h1
  exact String.ext (List.append_cancel_left h1)

theorem is_power_of_two_iff (i : Nat) : is_power_of_two i = true ↔ ∃ k, i = 2 ^ k := by
  unfold is_power_of_two
  simp only [Bool.and_eq_true, bne_iff_ne, ne_eq, beq_iff_eq]
  constructor
  · rintro ⟨_, h⟩
    exact ⟨Nat.log2 i, h.symm⟩
  · rintro ⟨k, rfl⟩
    refine ⟨by positivity, ?_⟩
    rw [Nat.log2_two_pow]

theorem is_multiple_of_iff (i j : Nat) : is_multiple_of i j = true ↔ j ∣ i := by
  unfold is_multiple_of
  rw [beq_iff_eq]
  exact (Nat.dvd_iff_mod_eq_zero ..).symm

theorem check_result (base_check : CheckResult) (block_size_of : MdDevice → Nat)
    (page_size : Nat) (md : Md)
    (hbase : base_check.error = none) (hname : is_valid_name md.name = true)
    (hchunk : 0 < md.chunk_size) :
    check base_check block_size_of page_size true md =
      { reported := base_check.reported ++ chunk_size_errors block_size_of page_size md,
        error := none } := by
  unfold check
  simp [hbase, hname, hchunk]

/-- C22: for an Md with a valid name and a chunk size above 0, checked with
callbacks (and with a base-class check that does not throw), `check` does not
throw and reports, after the errors of the base class, these errors about the
chunk size: for RAID0 the error "smaller than 4 KiB" if and only if the chunk
size is below 4096; for RAID4, RAID5, RAID6 and RAID10 the error "smaller than
the page size" if and only if the chunk size is below the page size, and the
error "not a power of two" if and only if the chunk size is not a power of
two; for RAID1, CONTAINER and UNKNOWN none. -/
theorem check_chunk_size_errors (base_check : CheckResult) (block_size_of : MdDevice → Nat)
    (page_size : Nat) (md : Md)
    (hbase : base_check.error = none) (hname : is_valid_name md.name = true)
    (hchunk : 0 < md.chunk_size) :
    (check base_check block_size_of page_size true md).error = none ∧
      ∃ own : List String,
        (check base_check block_size_of page_size true md).reported =
          base_check.reported ++ own ∧
        (md.md_level = MdLevel.RAID0 →
          (chunk_size_below_4KiB_text md.name ∈ own ↔ md.chunk_size < 4096) ∧
          chunk_size_below_page_size_text md.name ∉ own ∧
          chunk_size_not_power_of_two_text md.name ∉ own) ∧
        ((md.md_level = MdLevel.RAID4 ∨ md.md_level = MdLevel.RAID5 ∨
            md.md_level = MdLevel.RAID6 ∨ md.md_level = MdLevel.RAID10) →
          (chunk_size_below_page_size_text md.name ∈ own ↔ md.chunk_size < page_size) ∧
          (chunk_size_not_power_of_two_text md.name ∈ own ↔ ¬ ∃ k, md.chunk_size = 2 ^ k) ∧
          chunk_size_below_4KiB_text md.name ∉ own) ∧
        ((md.md_level = MdLevel.RAID1 ∨ md.md_level = MdLevel.CONTAINER ∨
            md.md_level = MdLevel.UNKNOWN) → own = []) := by
  rw [check_result base_check block_size_of page_size md hbase hname hchunk]
  refine ⟨rfl, chunk_size_errors block_size_of page_size md, rfl, ?_, ?_, ?_⟩
  · intro hl
    have h1 : chunk_size_below_4KiB_text md.name ≠ chunk_size_not_multiple_text md.name :=
      fun h => absurd (chunk_text_injective _ _ _ h) (by decide)
    have h2 : chunk_size_below_page_size_text md.name ≠ chunk_size_below_4KiB_text md.name :=
      fun h => absurd (chunk_text_injective _ _ _ h) (by decide)
    have h3 : chunk_size_below_page_size_text md.name ≠ chunk_size_not_multiple_text md.name :=
      fun h => absurd (chunk_text_injective _ _ _ h) (by decide)
    have h4 : chunk_size_not_power_of_two_text md.name ≠ chunk_size_below_4KiB_text md.name :=
      fun h => absurd (chunk_text_injective _ _ _ h) (by decide)
    have h5 : chunk_size_not_power_of_two_text md.name ≠
        chunk_size_not_multiple_text md.name :=
      fun h => absurd (chunk_text_injective _ _ _ h) (by decide)
    have h1' := Ne.symm h1
    have h2' := Ne.symm h2
    have h4' := Ne.symm h4
    unfold chunk_size_errors
    rw [hl]
    simp only [KiB]
    refine ⟨?_, ?_, ?_⟩ <;> split_ifs <;> simp_all
  · intro hl
    have h1 : chunk_size_below_page_size_text md.name ≠
        chunk_size_not_power_of_two_text md.name :=
      fun h => absurd (chunk_text_injective _ _ _ h) (by decide)
    have h2 : chunk_size_below_4KiB_text md.name ≠ chunk_size_below_page_size_text md.name :=
      fun h => absurd (chunk_text_injective _ _ _ h) (by decide)
    have h3 : chunk_size_below_4KiB_text md.name ≠
        chunk_size_not_power_of_two_text md.name :=
      fun h => absurd (chunk_text_injective _ _ _ h) (by decide)
    have h1' := Ne.symm h1
    have h2' := Ne.symm h2
    have h3' := Ne.symm h3
    have hp := is_power_of_two_iff md.chunk_size
    have hown : chunk_size_errors block_size_of page_size md =
        (if md.chunk_size < page_size then [chunk_size_below_page_size_text md.name] else []) ++
          (if !is_power_of_two md.chunk_size then [chunk_size_not_power_of_two_text md.name]
            else []) := by
      unfold chunk_size_errors
      rcases hl with h | h | h | h <;> rw [h]
    rw [hown, ← hp]
    refine ⟨?_, ?_, ?_⟩ <;> split_ifs <;> simp_all
  · intro hl
    unfold chunk_size_errors
    rcases hl with h | h | h <;> rw [h]

theorem check_chunk_size_errors_witness :
    (check { reported := [], error := none } (fun _ => 512) 4096 true
        (planned_md MdLevel.RAID5 6144 [])).error = none :=
  (check_chunk_size_errors { reported := [], error := none } (fun _ => 512) 4096
    (planned_md MdLevel.RAID5 6144 []) rfl (by decide) (by decide)).1

theorem lcm64_eq_lcm (a b : Nat) (ha : 0 < a) (hb : 0 < b) (hfit : Nat.lcm a b < ULL) :
    lcm64 a b = Nat.lcm a b := by
  unfold lcm64 mul64
  rw [if_neg (by omega)]
  have h : a / Nat.gcd a b * b = Nat.lcm a b := by
    unfold Nat.lcm
    rw [Nat.mul_comm (a / Nat.gcd a b) b, Nat.mul_comm a b,
      Nat.mul_div_assoc b (Nat.gcd_dvd_left a b)]
  rw [h]
  exact Nat.mod_eq_of_lt hfit

theorem foldl_lcm_pos_dvd (l : List Nat) (a : Nat) (ha : 0 < a) (hl : ∀ b ∈ l, 0 < b) :
    0 < l.foldl Nat.lcm a ∧ a ∣ l.foldl Nat.lcm a := by
  induction l generalizing a with
  | nil => exact ⟨ha, dvd_refl a⟩
  | cons b l ih =>
    rw [List.foldl_cons]
    have hb := hl b (List.mem_cons_self _ _)
    obtain ⟨h1, h2⟩ := ih (Nat.lcm a b) (Nat.lcm_pos ha hb)
      (fun c hc => hl c (List.mem_cons_of_mem _ hc))
    exact ⟨h1, dvd_trans (Nat.dvd_lcm_left a b) h2⟩

theorem foldl_lcm64_eq (l : List Nat) (a : Nat) (ha : 0 < a) (hl : ∀ b ∈ l, 0 < b)
    (hfit : l.foldl Nat.lcm a < ULL) : l.foldl lcm64 a = l.foldl Nat.lcm a := by
  induction l generalizing a with
  | nil => rfl
  | cons b l ih =>
    rw [List.foldl_cons, List.foldl_cons] at *
    have hb := hl b (List.mem_cons_self _ _)
    have hl' : ∀ c ∈ l, 0 < c := fun c hc => hl c (List.mem_cons_of_mem _ hc)
    obtain ⟨h1, h2⟩ := foldl_lcm_pos_dvd l (Nat.lcm a b) (Nat.lcm_pos ha hb) hl'
    have hle : Nat.lcm a b ≤ l.foldl Nat.lcm (Nat.lcm a b) := Nat.le_of_dvd h1 h2
    rw [lcm64_eq_lcm a b ha hb (lt_of_le_of_lt hle hfit)]
    exact ih (Nat.lcm a b) (Nat.lcm_pos ha hb) hl' hfit

/-- C23 (amended): for a RAID0 Md with a valid name and a chunk size above 0,
checked with callbacks, whose members have block sizes other than 0 with a
least common multiple that fits in 64 bits, `check` reports the error "not a
multiple of the sector size of the devices" if and only if the chunk size is
not a multiple of the least common multiple of 1 KiB and the block sizes of
the members. -/
theorem check_sector_size_error (base_check : CheckResult) (block_size_of : MdDevice → Nat)
    (page_size : Nat) (md : Md)
    (hbase : base_check.error = none) (hname : is_valid_name md.name = true)
    (hchunk : 0 < md.chunk_size) (hlevel : md.md_level = MdLevel.RAID0)
    (hpos : ∀ d ∈ md.devices, 0 < block_size_of d)
    (hfit : (md.devices.map block_size_of).foldl Nat.lcm 1024 < ULL) :
    ∃ own : List String,
      (check base_check block_size_of page_size true md).reported =
        base_check.reported ++ own ∧
      (chunk_size_not_multiple_text md.name ∈ own ↔
        ¬ (md.devices.map block_size_of).foldl Nat.lcm 1024 ∣ md.chunk_size) := by
  rw [check_result base_check block_size_of page_size md hbase hname hchunk]
  refine ⟨chunk_size_errors block_size_of page_size md, rfl, ?_⟩
  have h1 : chunk_size_below_4KiB_text md.name ≠ chunk_size_not_multiple_text md.name :=
    fun h => absurd (chunk_text_injective _ _ _ h) (by decide)
  have h1' := Ne.symm h1
  have hl : ∀ b ∈ md.devices.map block_size_of, 0 < b := by
    intro b hb
    obtain ⟨d, hd, rfl⟩ := List.mem_map.1 hb
    exact hpos d hd
  have hs : sector_size_lcm (md.devices.map block_size_of) =
      (md.devices.map block_size_of).foldl Nat.lcm 1024 := by
    unfold sector_size_lcm
    exact foldl_lcm64_eq _ 1024 (by decide) hl hfit
  have hm := is_multiple_of_iff md.chunk_size ((md.devices.map block_size_of).foldl Nat.lcm 1024)
  unfold chunk_size_errors
  rw [hlevel]
  simp only [hs]
  rw [← hm]
  split_ifs <;> simp_all

theorem check_sector_size_error_witness :
    ∃ own : List String,
      (check { reported := [], error := none } (fun _ => 512) 4096 true
          (planned_md MdLevel.RAID0 4608
            [active_member 1 ten_GiB, active_member 2 ten_GiB])).reported = [] ++ own ∧
      (chunk_size_not_multiple_text "/dev/md0" ∈ own ↔
        ¬ ((planned_md MdLevel.RAID0 4608
            [active_member 1 ten_GiB, active_member 2 ten_GiB]).devices.map
              (fun _ => 512)).foldl Nat.lcm 1024 ∣ 4608) :=
  check_sector_size_error { reported := [], error := none } (fun _ => 512) 4096
    (planned_md MdLevel.RAID0 4608 [active_member 1 ten_GiB, active_member 2 ten_GiB])
    rfl (by decide) (by decide) rfl (by decide) (by decide)

/-- C23 as stated fails because the least common multiple starts at 1 KiB: a
RAID0 with chunk size 4608 over two members with a block size of 512 gets the
error "not a multiple of the sector size of the devices", although 4608 is a
multiple of 512, the least common multiple of the block sizes of its
members. -/
theorem check_sector_size_error_counterexample :
    (check { reported := [], error := none } (fun _ => 512) 4096 true
        (planned_md MdLevel.RAID0 4608
          [active_member 1 ten_GiB, active_member 2 ten_GiB])).reported =
        [chunk_size_not_multiple_text "/dev/md0"] ∧
      Nat.lcm 512 512 ∣ 4608 ∧ sector_size_lcm [512, 512] = 1024 := by
  decide

/-! ## Comparison, saving and loading -/

theorem md_level_toValueWithFallback_toString (v fallback : MdLevel) :
    MdLevel.toValueWithFallback v.toString fallback = v := by
  cases v <;> rfl

theorem md_parity_toValueWithFallback_toString (v fallback : MdParity) :
    MdParity.toValueWithFallback v.toString fallback = v := by
  cases v <;> rfl

/-- The children that `Md::Impl::save` adds to a node. -/
theorem save_eq_append (node : XmlNode) (md : Md) : Md.save node md = node ++ Md.save [] md := by
  unfold Md.save setChildValueIf setChildValue
  simp only
  split_ifs <;> simp

theorem getChildValue_append (node children : XmlNode) (name : String)
    (hfresh : ∀ child ∈ node, child.1 ≠ name) :
    getChildValue (node ++ children) name = getChildValue children name := by
  unfold getChildValue
  rw [List.find?_append]
  have h : node.find? (fun child => child.1 == name) = none := by
    rw [List.find?_eq_none]
    intro child hc
    simpa using hfresh child hc
  rw [h]
  rfl

theorem load_save_fields (base : Md) (x : Md) :
    persisted_md_fields (Md.load base (Md.save [] x)) = persisted_md_fields x := by
  have hl := md_level_toValueWithFallback_toString x.md_level MdLevel.RAID0
  have hp := md_parity_toValueWithFallback_toString x.md_parity MdParity.DEFAULT
  have hu := String.isEmpty_iff x.uuid
  have hm := String.isEmpty_iff x.metadata
  unfold persisted_md_fields Md.load Md.save setChildValueIf setChildValue getChildValue
  by_cases h1 : x.md_parity = MdParity.DEFAULT <;>
  by_cases h2 : x.chunk_size = 0 <;>
  by_cases h3 : x.uuid = "" <;>
  by_cases h4 : x.metadata = "" <;>
  cases h5 : x.in_etc_mdadm <;>
  simp_all [List.find?]

theorem load_append (base : Md) (node children : XmlNode)
    (hfresh : ∀ child ∈ node, child.1 ∉ md_child_names) :
    Md.load base (node ++ children) = Md.load base children := by
  have h : ∀ name ∈ md_child_names,
      getChildValue (node ++ children) name = getChildValue children name := by
    intro name hname
    exact getChildValue_append node children name
      (fun child hc heq => hfresh child hc (by rw [heq]; exact hname))
  unfold Md.load
  rw [h "md-level" (by decide), h "md-parity" (by decide), h "chunk-size" (by decide),
    h "uuid" (by decide), h "metadata" (by decide), h "in-etc-mdadm" (by decide)]

theorem save_of_fields (a b : Md) (h : persisted_md_fields a = persisted_md_fields b) :
    Md.save [] a = Md.save [] b := by
  unfold persisted_md_fields at h
  simp only [Prod.mk.injEq] at h
  obtain ⟨h1, h2, h3, h4, h5, h6⟩ := h
  unfold Md.save
  rw [h1, h2, h3, h4, h5, h6]

/-- C24: `equal` is true if and only if the comparison of the base class is
true and the two states agree on `md_level`, `md_parity`, `chunk_size`,
`metadata`, `uuid` and `in_etc_mdadm`.  These six fields are the fields that
`save` writes (two states are saved alike exactly when they agree on them) and
that the constructor from a node reads (whatever the base class has loaded);
so two states that differ in a persisted field are not equal. -/
theorem equal_iff_persisted_fields (base_equal : Md → Md → Bool) (a b : Md) :
    (equal base_equal a b = true ↔
        base_equal a b = true ∧ a.md_level = b.md_level ∧ a.md_parity = b.md_parity ∧
          a.chunk_size = b.chunk_size ∧ a.metadata = b.metadata ∧ a.uuid = b.uuid ∧
          a.in_etc_mdadm = b.in_etc_mdadm) ∧
      (∀ node, Md.save node a = Md.save node b ↔
        persisted_md_fields a = persisted_md_fields b) ∧
      (∀ base base' node,
        persisted_md_fields (Md.load base node) = persisted_md_fields (Md.load base' node)) ∧
      (persisted_md_fields a ≠ persisted_md_fields b → equal base_equal a b = false) := by
  have hequal : equal base_equal a b = true ↔
      base_equal a b = true ∧ a.md_level = b.md_level ∧ a.md_parity = b.md_parity ∧
        a.chunk_size = b.chunk_size ∧ a.metadata = b.metadata ∧ a.uuid = b.uuid ∧
        a.in_etc_mdadm = b.in_etc_mdadm := by
    unfold equal
    cases hb : base_equal a b <;> simp [and_assoc]
  refine ⟨hequal, ?_, ?_, ?_⟩
  · intro node
    constructor
    · intro h
      rw [save_eq_append node a, save_eq_append node b] at h
      have h' := List.append_cancel_left h
      have ha := load_save_fields a a
      have hb := load_save_fields a b
      rw [← ha, ← hb, h']
    · intro h
      rw [save_eq_append node a, save_eq_append node b, save_of_fields a b h]
  · intro base base' node
    rfl
  · intro hne
    cases he : equal base_equal a b with
    | false => rfl
    | true =>
      exfalso
      apply hne
      obtain ⟨_, h1, h2, h3, h4, h5, h6⟩ := hequal.1 he
      unfold persisted_md_fields
      rw [h1, h2, h3, h4, h5, h6]

/-- C25: loading the node that `save` has written for an Md state `x` gives
the `md_level`, `md_parity`, `chunk_size`, `uuid`, `metadata` and
`in_etc_mdadm` of `x`, also for the fields that `save` leaves out because they
have their default value, provided the base class has written no child with
one of the six names; so loading, saving and loading again gives the same six
fields as loading once. -/
theorem load_after_save (base : Md) (node : XmlNode) (x : Md)
    (hfresh : ∀ child ∈ node, child.1 ∉ md_child_names) :
    persisted_md_fields (Md.load base (Md.save node x)) = persisted_md_fields x ∧
      ∀ n : XmlNode,
        persisted_md_fields (Md.load base (Md.save node (Md.load base n))) =
          persisted_md_fields (Md.load base n) := by
  have h : ∀ y : Md, persisted_md_fields (Md.load base (Md.save node y)) =
      persisted_md_fields y := by
    intro y
    rw [save_eq_append, load_append base node _ hfresh]
    exact load_save_fields base y
  exact ⟨h x, fun n => h (Md.load base n)⟩

theorem load_after_save_witness :
    persisted_md_fields
        (Md.load probed_md
          (Md.save [("name", .text "/dev/md0")] (planned_md MdLevel.RAID6 0 []))) =
      persisted_md_fields (planned_md MdLevel.RAID6 0 []) ∧
    Md.save [("name", .text "/dev/md0")] (planned_md MdLevel.RAID6 0 []) =
      [("name", .text "/dev/md0"), ("md-level", .text "RAID6")] :=
  ⟨(load_after_save probed_md [("name", .text "/dev/md0")] (planned_md MdLevel.RAID6 0 [])
      (by decide)).1, by decide⟩

/-! ## Nfs names -/

theorem split_at_indexOf (l : List Char) (h : l.indexOf ':' ≠ l.length) :
    l = l.take (l.indexOf ':') ++ ':' :: l.drop (l.indexOf ':' + 1) ∧
      ':' ∉ l.take (l.indexOf ':') := by
  induction l with
  | nil => simp at h
  | cons c l ih =>
    by_cases hc : c = ':'
    · subst hc
      simp
    · have hi : (c :: l).indexOf ':' = l.indexOf ':' + 1 :=
        List.indexOf_cons_ne _ hc
      rw [hi] at h ⊢
      have h' : l.indexOf ':' ≠ l.length := by
        intro h0; apply h; simp [h0]
      obtain ⟨h1, h2⟩ := ih h'
      refine ⟨?_, ?_⟩
      · simp only [List.take_succ_cons, List.drop_succ_cons, List.cons_append]
        rw [← h1]
      · simp only [List.take_succ_cons, List.mem_cons, not_or]
        exact ⟨fun h0 => hc h0.symm, h2⟩

theorem indexOf_append_colon (s p : List Char) (hs : ':' ∉ s) :
    (s ++ ':' :: p).indexOf ':' = s.length := by
  induction s with
  | nil => simp
  | cons c s ih =>
    have hc : c ≠ ':' := fun h => hs (by simp [h])
    have hs' : ':' ∉ s := fun h => hs (List.mem_cons_of_mem _ h)
    rw [List.cons_append, List.indexOf_cons_ne _ hc, ih hs']
    rfl

/-- C28: for every name that `is_valid_name` accepts (at least 3 bytes, not
starting with `/`, containing `:`), `split_name` does not fail and returns a
server and a path with `server + ":" + path` equal to the name and no `:` in
the server, that is, the name split at its first `:`.  `split_name` fails
exactly on the names without `:`, and for a server without `:` and any path it
gives back the server and the path from the mount name
`server + ":" + path`. -/
theorem nfs_split_name (name : String) :
    (Nfs.is_valid_name name = true →
        ∃ server path, Nfs.split_name name = .ok (server, path) ∧
          server ++ ":" ++ path = name ∧ ':' ∉ server.toList) ∧
      ((∃ e, Nfs.split_name name = .error e) ↔ ':' ∉ name.toList) ∧
      (∀ server path : String, ':' ∉ server.toList →
        Nfs.split_name (Nfs.get_mount_name server path) = .ok (server, path)) := by
  have hsplit : ':' ∈ name.toList →
      ∃ server path, Nfs.split_name name = .ok (server, path) ∧
        server ++ ":" ++ path = name ∧ ':' ∉ server.toList := by
    intro hmem
    have hne : name.toList.indexOf ':' ≠ name.toList.length := by
      rw [Ne, List.indexOf_eq_length]
      exact fun h => h hmem
    obtain ⟨h1, h2⟩ := split_at_indexOf name.toList hne
    refine ⟨String.mk (name.toList.take (name.toList.indexOf ':')),
      String.mk (name.toList.drop (name.toList.indexOf ':' + 1)), ?_, ?_, h2⟩
    · unfold Nfs.split_name
      simp only [hne, if_false]
    · apply String.ext
      have hcolon : (":" : String).data = [':'] := rfl
      simp only [String.data_append, hcolon, List.append_assoc, List.singleton_append]
      exact h1.symm
  refine ⟨?_, ?_, ?_⟩
  · intro hvalid
    unfold Nfs.is_valid_name at hvalid
    simp only [Bool.and_eq_true] at hvalid
    exact hsplit (by simpa using hvalid.2)
  · constructor
    · rintro ⟨e, he⟩ hmem
      obtain ⟨server, path, hok, _⟩ := hsplit hmem
      rw [hok] at he
      cases he
    · intro hnot
      refine ⟨.Exception "invalid Nfs name", ?_⟩
      unfold Nfs.split_name
      simp only [List.indexOf_eq_length.2 hnot, if_true]
  · intro server path hs
    unfold Nfs.split_name Nfs.get_mount_name
    have hcolon : (":" : String).data = [':'] := rfl
    have hl : (server ++ ":" ++ path).toList = server.toList ++ ':' :: path.toList := by
      simp only [String.toList, String.data_append, hcolon, List.append_assoc,
        List.singleton_append]
    have htake : (server.toList ++ ':' :: path.toList).take server.toList.length =
        server.toList := List.take_left _ _
    have hdrop : (server.toList ++ ':' :: path.toList).drop (server.toList.length + 1) =
        path.toList := by
      have h := List.drop_left (server.toList ++ [':']) path.toList
      simpa using h
    rw [hl, indexOf_append_colon _ _ hs]
    have hlen : server.toList.length ≠ (server.toList ++ ':' :: path.toList).length := by
      simp
    simp only [hlen, if_false, htake, hdrop]
    rfl

/-- C29: `canonical_path` at inputs with a run of three or four slashes: one
pass of `replace_all_copy` leaves `/srv//nfs` for `/srv///nfs`, which has two
consecutive slashes and is changed by a second application, and `/a////`
becomes `/a/`, which ends with a slash. -/
theorem canonical_path_keeps_double_slash :
    Nfs.canonical_path "/srv///nfs" = "/srv//nfs" ∧
      Nfs.canonical_path (Nfs.canonical_path "/srv///nfs") = "/srv/nfs" ∧
      Nfs.canonical_path "/a////" = "/a/" := by
  decide

/-! ## Spare members -/

theorem foldl_loop_shrink (rcs : Int) (u : Nat) (l : List MdDevice) (acc : Accu) :
    l.foldl (loop_step rcs) { acc with smallest := min acc.smallest u } =
      { number := (l.foldl (loop_step rcs) acc).number
        sum := (l.foldl (loop_step rcs) acc).sum
        smallest := min (l.foldl (loop_step rcs) acc).smallest u } := by
  induction l generalizing acc with
  | nil => rfl
  | cons e l ih =>
    have hstep : loop_step rcs { acc with smallest := min acc.smallest u } e =
        { loop_step rcs acc e with smallest := min (loop_step rcs acc e).smallest u } := by
      simp only [loop_step]
      rw [min_right_comm]
    rw [List.foldl_cons, List.foldl_cons, hstep, ih]

/-- A spare member anywhere in the list of members leaves the count and the
sum of the member loop alone and takes part in the minimum. -/
theorem member_loop_insert_spare (rcs : Int) (l1 l2 : List MdDevice) (d : MdDevice)
    (hspare : d.spare = true) :
    member_loop rcs (l1 ++ d :: l2) =
      { number := (member_loop rcs (l1 ++ l2)).number
        sum := (member_loop rcs (l1 ++ l2)).sum
        smallest := min (member_loop rcs (l1 ++ l2)).smallest (usable_size rcs d.size) } := by
  unfold member_loop
  rw [List.foldl_append, List.foldl_cons, List.foldl_append]
  have hstep : ∀ acc : Accu, loop_step rcs acc d =
      { acc with smallest := min acc.smallest (usable_size rcs d.size) } := by
    intro acc
    simp [loop_step, hspare]
  rw [hstep, foldl_loop_shrink]

theorem mul64_le (a b : Nat) : mul64 a b ≤ a * b := Nat.mod_le _ _

theorem mul64_of_lt (a b : Nat) (h : a * b < ULL) : mul64 a b = a * b :=
  Nat.mod_eq_of_lt h

theorem raid10_formula_mono (c number s s' : Nat) (hle : s' ≤ s) (hfit : number * s < ULL) :
    mul64 (mul64 (s' / c) number / 2) c ≤ mul64 (mul64 (s / c) number / 2) c := by
  have hdiv : s' / c ≤ s / c := Nat.div_le_div_right hle
  have h1 : s / c * number ≤ number * s := by
    calc s / c * number ≤ s * number := Nat.mul_le_mul_right number (Nat.div_le_self s c)
      _ = number * s := Nat.mul_comm s number
  have hX : mul64 (s / c) number = s / c * number :=
    mul64_of_lt _ _ (lt_of_le_of_lt h1 hfit)
  have hX' : mul64 (s' / c) number ≤ s / c * number :=
    le_trans (mul64_le _ _) (Nat.mul_le_mul_right number hdiv)
  have h2 : s / c * number / 2 * c ≤ number * s := by
    calc s / c * number / 2 * c ≤ s / c * number * c :=
          Nat.mul_le_mul_right c (Nat.div_le_self _ 2)
      _ = number * (s / c * c) := by ring
      _ ≤ number * s := Nat.mul_le_mul_left number (Nat.div_mul_le_self s c)
  rw [hX, mul64_of_lt _ _ (lt_of_le_of_lt h2 hfit)]
  exact le_trans (mul64_le _ _) (Nat.mul_le_mul_right c (Nat.div_le_div_right hX'))

/-- With the product of the member count and the smallest usable size within 64
bits, the size of the level formula does not grow when the smallest usable
size shrinks. -/
theorem level_formula_mono (md_level : MdLevel) (rcs : Int) (number sum s s' : Nat)
    (hle : s' ≤ s) (hfit : number = 0 ∨ number * s < ULL) :
    (level_formula md_level rcs { number := number, sum := sum, smallest := s' }).1 ≤
      (level_formula md_level rcs { number := number, sum := sum, smallest := s }).1 := by
  rcases hfit with h0 | hfit
  · subst h0
    cases md_level <;> simp [level_formula]
  · have hk : ∀ k, k ≤ number → mul64 s' k ≤ mul64 s k := by
      intro k hk
      have h1 : s * k ≤ number * s := by
        rw [Nat.mul_comm number s]
        exact Nat.mul_le_mul_left s hk
      rw [mul64_of_lt s k (lt_of_le_of_lt h1 hfit)]
      exact le_trans (mul64_le s' k) (Nat.mul_le_mul_right k hle)
    have h10 := raid10_formula_mono (toULL rcs) number s s' hle hfit
    have hk1 := hk (number - 1) (Nat.sub_le _ _)
    have hk2 := hk (number - 2) (Nat.sub_le _ _)
    cases md_level <;> simp only [level_formula] <;> (try split_ifs) <;> simp_all

theorem level_formula_raid0 (rcs : Int) (number sum s s' : Nat) :
    (level_formula MdLevel.RAID0 rcs { number := number, sum := sum, smallest := s' }).1 =
      (level_formula MdLevel.RAID0 rcs { number := number, sum := sum, smallest := s }).1 := by
  simp [level_formula]

theorem level_formula_raid1 (rcs : Int) (number sum s s' : Nat) (hle : s' ≤ s) :
    (level_formula MdLevel.RAID1 rcs { number := number, sum := sum, smallest := s' }).1 ≤
      (level_formula MdLevel.RAID1 rcs { number := number, sum := sum, smallest := s }).1 := by
  simp only [level_formula]
  split_ifs <;> simp_all

/-- C27 (amended): for an Md that does not exist in the system and a spare
member `d` attached at any place among its members: the number of devices
stays the same; for RAID0 the size set by `calculate_region_and_topology`
stays the same; for RAID1 the new size is at most the old size; for every
level the new size is at most the old size provided the number of devices
times the smallest usable size among the old members fits in 64 bits; and a
RAID5 of three members of 10 GiB gets strictly smaller with a spare of 1 GiB. -/
theorem spare_never_increases_size (md : Md) (l1 l2 : List MdDevice) (d : MdDevice)
    (hnew : md.exists_in_system = false) (hdev : md.devices = l1 ++ l2)
    (hspare : d.spare = true) :
    number_of_devices { md with devices := l1 ++ d :: l2 } = number_of_devices md ∧
      (md.md_level = MdLevel.RAID0 →
        get_size (calculate_region_and_topology { md with devices := l1 ++ d :: l2 }) =
          get_size (calculate_region_and_topology md)) ∧
      (md.md_level = MdLevel.RAID1 →
        get_size (calculate_region_and_topology { md with devices := l1 ++ d :: l2 }) ≤
          get_size (calculate_region_and_topology md)) ∧
      ((∀ s, is_smallest_usable md s → number_of_devices md * s < ULL) →
        get_size (calculate_region_and_topology { md with devices := l1 ++ d :: l2 }) ≤
          get_size (calculate_region_and_topology md)) ∧
      get_size (calculate_region_and_topology
          (planned_md MdLevel.RAID5 0
            [active_member 1 ten_GiB, active_member 2 ten_GiB, active_member 3 ten_GiB,
              spare_member 4 (1024 * MiB)])) <
        get_size (calculate_region_and_topology
          (planned_md MdLevel.RAID5 0
            [active_member 1 ten_GiB, active_member 2 ten_GiB, active_member 3 ten_GiB])) := by
  have hnew' : ({ md with devices := l1 ++ d :: l2 } : Md).exists_in_system = false := hnew
  have hsize' := get_size_calculate { md with devices := l1 ++ d :: l2 } hnew'
  have hsize := get_size_calculate md hnew
  simp only [] at hsize'
  rw [member_loop_insert_spare _ l1 l2 d hspare, ← hdev] at hsize'
  have hnum := member_loop_number (real_chunk_size md.md_level md.chunk_size) md
  rw [hsize', hsize]
  refine ⟨?_, ?_, ?_, ?_, by decide⟩
  · simp [number_of_devices, hdev, hspare, List.countP_append, List.countP_cons]
  · intro hlevel
    rw [hlevel]
    exact level_formula_raid0 _ _ _ _ _
  · intro hlevel
    rw [hlevel]
    exact level_formula_raid1 _ _ _ _ _ (Nat.min_le_left _ _)
  · intro hfit
    apply level_formula_mono _ _ _ _ _ _ (Nat.min_le_left _ _)
    rw [hnum]
    by_cases hne : md.devices = []
    · left
      simp [number_of_devices, hne]
    · right
      exact hfit _ (member_loop_smallest md hne)

theorem spare_never_increases_size_witness :
    (planned_md MdLevel.RAID5 0
        [active_member 1 ten_GiB, active_member 2 ten_GiB,
          active_member 3 ten_GiB]).exists_in_system = false ∧
      (spare_member 4 (1024 * MiB)).spare = true ∧
      number_of_devices
        (planned_md MdLevel.RAID5 0
          [active_member 1 ten_GiB, active_member 2 ten_GiB, spare_member 4 (1024 * MiB),
            active_member 3 ten_GiB]) = 3 ∧
      get_size (calculate_region_and_topology
          (planned_md MdLevel.RAID5 0
            [active_member 1 ten_GiB, active_member 2 ten_GiB, spare_member 4 (1024 * MiB),
              active_member 3 ten_GiB])) ≤
        get_size (calculate_region_and_topology
          (planned_md MdLevel.RAID5 0
            [active_member 1 ten_GiB, active_member 2 ten_GiB, active_member 3 ten_GiB])) ∧
      get_size (calculate_region_and_topology
          (planned_md MdLevel.RAID5 0
            [active_member 1 ten_GiB, active_member 2 ten_GiB, spare_member 4 (1024 * MiB),
              active_member 3 ten_GiB])) = 2112880640 ∧
      get_size (calculate_region_and_topology
          (planned_md MdLevel.RAID5 0
            [active_member 1 ten_GiB, active_member 2 ten_GiB, active_member 3 ten_GiB])) =
        21205352448 :=
  have h := spare_never_increases_size
    (planned_md MdLevel.RAID5 0
      [active_member 1 ten_GiB, active_member 2 ten_GiB, active_member 3 ten_GiB])
    [active_member 1 ten_GiB, active_member 2 ten_GiB] [active_member 3 ten_GiB]
    (spare_member 4 (1024 * MiB)) rfl rfl rfl
  ⟨rfl, rfl, h.1.trans (by decide),
    h.2.2.2.1 (fun s hs => by
      have h1 := hs.2 (active_member 1 ten_GiB) (List.mem_cons_self _ _)
      have h2 : member_usable_size
          (planned_md MdLevel.RAID5 0
            [active_member 1 ten_GiB, active_member 2 ten_GiB, active_member 3 ten_GiB])
          (active_member 1 ten_GiB) = 10602676224 := by decide
      have h3 : number_of_devices
          (planned_md MdLevel.RAID5 0
            [active_member 1 ten_GiB, active_member 2 ten_GiB, active_member 3 ten_GiB]) = 3 := by
        decide
      rw [h2] at h1
      rw [h3]
      unfold ULL
      omega),
    by decide, by decide⟩

/-- C27 as stated fails when the product of the number of devices and the
smallest usable size does not fit in 64 bits: a RAID5 of three active members of
9223372037123211264 bytes gets the size 267386880 (the product wraps), and
with one more spare member of 4611686018427387904 bytes it gets the size
9223372036585291776, which is larger. -/
theorem spare_never_increases_size_counterexample :
    (spare_member 4 4611686018427387904).spare = true ∧
      get_size (calculate_region_and_topology
          (planned_md MdLevel.RAID5 0
            [active_member 1 9223372037123211264, active_member 2 9223372037123211264,
              active_member 3 9223372037123211264])) = 267386880 ∧
      get_size (calculate_region_and_topology
          (planned_md MdLevel.RAID5 0
            [active_member 1 9223372037123211264, active_member 2 9223372037123211264,
              active_member 3 9223372037123211264,
              spare_member 4 4611686018427387904])) = 9223372036585291776 ∧
      ¬ (9223372036585291776 ≤ 267386880) := by
  decide


/-! ## The conservative bound -/

theorem usable_size_le (rcs : Int) (S : Nat) (hS : 8192 ≤ S) (hlt : S < ULL) :
    usable_size rcs S ≤ S := by
  have htrim := trim_le S
  have hx : trim S < ULL := lt_of_le_of_lt htrim hlt
  unfold usable_size
  simp only
  rw [deduction_and_trim_eq S hS hlt]
  split_ifs with hrest
  · have hmod : trim S % toULL rcs < ULL := lt_of_le_of_lt (Nat.mod_le _ _) hx
    rw [toULL_toLong _ hmod, sub64_of_le _ _ (Nat.mod_le _ _) hx]
    omega
  · exact htrim

theorem foldl_loop_sum_le (rcs : Int) (ds : List MdDevice) (acc : Accu)
    (hds : ∀ d ∈ ds, 8192 ≤ d.size ∧ d.size < ULL) :
    (ds.foldl (loop_step rcs) acc).sum ≤
      acc.sum + ((ds.filter (fun d => !d.spare)).map (fun d => d.size)).sum := by
  induction ds generalizing acc with
  | nil => simp
  | cons d ds ih =>
    have hd := hds d (List.mem_cons_self _ _)
    have hle := usable_size_le rcs d.size hd.1 hd.2
    have hrest := ih (loop_step rcs acc d) (fun e he => hds e (List.mem_cons_of_mem _ he))
    rw [List.foldl_cons]
    cases hs : d.spare
    · have hstep : (loop_step rcs acc d).sum ≤ acc.sum + d.size := by
        simp only [loop_step, hs, Bool.false_eq_true, if_false]
        exact le_trans (Nat.mod_le _ _) (Nat.add_le_add_left hle _)
      simp only [List.filter_cons, hs, Bool.not_false, if_true, List.map_cons, List.sum_cons]
      rw [← Nat.add_assoc]
      exact le_trans hrest (Nat.add_le_add_right hstep _)
    · have hstep : (loop_step rcs acc d).sum = acc.sum := by
        simp [loop_step, hs]
      simp only [List.filter_cons, hs, Bool.not_true, Bool.false_eq_true, if_false]
      rw [hstep] at hrest
      exact hrest

theorem length_mul_le_sum (l : List Nat) (s : Nat) (h : ∀ x ∈ l, s ≤ x) :
    l.length * s ≤ l.sum := by
  induction l with
  | nil => simp
  | cons x l ih =>
    have h1 := h x (List.mem_cons_self _ _)
    have h2 := ih (fun y hy => h y (List.mem_cons_of_mem _ hy))
    rw [List.length_cons, List.sum_cons, Nat.succ_mul]
    omega

/-- With every member of at least 8 KiB, the number of devices times the
smallest usable size is at most the sum of the raw sizes of the members that
are not spare. -/
theorem number_mul_smallest_le (md : Md)
    (hds : ∀ d ∈ md.devices, 8192 ≤ d.size ∧ d.size < ULL) :
    number_of_devices md *
        (member_loop (real_chunk_size md.md_level md.chunk_size) md.devices).smallest ≤
      raw_size_sum md := by
  have hlen : number_of_devices md =
      ((md.devices.filter (fun d => !d.spare)).map (fun d => d.size)).length := by
    rw [List.length_map, number_of_devices, List.countP_eq_length_filter]
  rw [hlen]
  apply length_mul_le_sum
  intro x hx
  obtain ⟨d, hd, rfl⟩ := List.mem_map.1 hx
  have hmem := (List.mem_filter.1 hd).1
  exact le_trans
    (foldl_loop_smallest_le_mem (real_chunk_size md.md_level md.chunk_size) md.devices _ d hmem)
    (usable_size_le _ _ (hds d hmem).1 (hds d hmem).2)

/-- The size set by `calculate_region_and_topology` is conservative as soon as
every member has at least 8 KiB: it is at most the sum of the raw sizes of the
members that are not spare, and for RAID1 at most the raw size of each member. -/
theorem size_conservative_of_large_members (md : Md) (hnew : md.exists_in_system = false)
    (hds : ∀ d ∈ md.devices, 8192 ≤ d.size ∧ d.size < ULL) :
    get_size (calculate_region_and_topology md) ≤ raw_size_sum md ∧
      (md.md_level = MdLevel.RAID1 →
        ∀ d ∈ md.devices, get_size (calculate_region_and_topology md) ≤ d.size) := by
  have hnum := member_loop_number (real_chunk_size md.md_level md.chunk_size) md
  have hprod := number_mul_smallest_le md hds
  have hsum := foldl_loop_sum_le (real_chunk_size md.md_level md.chunk_size) md.devices
    { number := 0, sum := 0, smallest := ULLONG_MAX } hds
  have hsmall := foldl_loop_smallest_le_mem (real_chunk_size md.md_level md.chunk_size)
    md.devices { number := 0, sum := 0, smallest := ULLONG_MAX }
  rw [get_size_calculate md hnew]
  rw [← hnum] at hprod
  simp only [Nat.zero_add] at hsum
  change (member_loop (real_chunk_size md.md_level md.chunk_size) md.devices).sum ≤
    raw_size_sum md at hsum
  change ∀ d ∈ md.devices,
    (member_loop (real_chunk_size md.md_level md.chunk_size) md.devices).smallest ≤
      usable_size (real_chunk_size md.md_level md.chunk_size) d.size at hsmall
  generalize member_loop (real_chunk_size md.md_level md.chunk_size) md.devices = acc at *
  generalize real_chunk_size md.md_level md.chunk_size = rcs at *
  have h1 : acc.number ≥ 2 → acc.smallest ≤ raw_size_sum md := fun hn =>
    le_trans (Nat.le_mul_of_pos_left _ (by omega)) hprod
  have hk : ∀ k, mul64 acc.smallest (acc.number - k) ≤ raw_size_sum md := by
    intro k
    refine le_trans (mul64_le _ _) (le_trans ?_ hprod)
    rw [Nat.mul_comm]
    exact Nat.mul_le_mul_right _ (Nat.sub_le _ _)
  have h10 : mul64 (mul64 (acc.smallest / toULL rcs) acc.number / 2) (toULL rcs) ≤
      raw_size_sum md := by
    refine le_trans (mul64_le _ _) (le_trans ?_ hprod)
    calc mul64 (acc.smallest / toULL rcs) acc.number / 2 * toULL rcs
        ≤ mul64 (acc.smallest / toULL rcs) acc.number * toULL rcs :=
          Nat.mul_le_mul_right _ (Nat.div_le_self _ 2)
      _ ≤ acc.smallest / toULL rcs * acc.number * toULL rcs :=
          Nat.mul_le_mul_right _ (mul64_le _ _)
      _ = acc.number * (acc.smallest / toULL rcs * toULL rcs) := by ring
      _ ≤ acc.number * acc.smallest :=
          Nat.mul_le_mul_left _ (Nat.div_mul_le_self _ _)
  refine ⟨?_, ?_⟩
  · cases md.md_level <;> simp only [level_formula] <;> (try split_ifs) <;>
      first
        | exact Nat.zero_le _
        | exact hsum
        | exact h1 (by assumption)
        | exact hk _
        | exact h10
  · intro hlevel d hd
    rw [hlevel]
    simp only [level_formula]
    split_ifs
    · exact le_trans (hsmall d hd) (usable_size_le _ _ (hds d hd).1 (hds d hd).2)
    · exact Nat.zero_le _

/-- C26: the size calculation at members below 8 KiB.  For a RAID1 that does
not exist in the system over two active members of 4 KiB each the deduction
`size - 0x2000` wraps around and `calculate_region_and_topology` sets the size
18446744073575268352, which exceeds the sum 8192 of the raw sizes of the
members and the raw size 4096 of each member; the same happens for a RAID0,
with the size 18446744073440067584. -/
theorem size_not_conservative_below_8KiB :
    (planned_md MdLevel.RAID1 0 [active_member 1 4096, active_member 2 4096]).exists_in_system =
        false ∧
      get_size (calculate_region_and_topology
          (planned_md MdLevel.RAID1 0 [active_member 1 4096, active_member 2 4096])) =
        18446744073575268352 ∧
      raw_size_sum (planned_md MdLevel.RAID1 0 [active_member 1 4096, active_member 2 4096]) =
        8192 ∧
      get_size (calculate_region_and_topology
          (planned_md MdLevel.RAID0 0 [active_member 1 4096, active_member 2 4096])) =
        18446744073440067584 ∧
      usable_size (real_chunk_size MdLevel.RAID1 0) 4096 = 18446744073575268352 := by
  decide

end Storage
